import Mathlib

/-!
Verification of the San Ramon Council Intelligence Platform core
(`scraper.py`, `youtube_logic.py`, `engine.py`) against its
natural-language specification.

The Python modules are shallowly embedded: the network, the HTML parser
(BeautifulSoup), the regex-based heading-date extractor and the LLM
providers are external collaborators and enter the model as explicit
function arguments; every piece of logic written in the repository itself
(filtering, grouping, merging, classification, dispatch) is translated
definition-for-definition below.
-/

set_option maxRecDepth 4096

/-- Models the Python substring operator `pat in s` on strings. -/
def strContains (s pat : String) : Bool :=
  (List.range (s.data.length + 1)).any (fun i => pat.data.isPrefixOf (s.data.drop i))

/-- Models the Python method `str.strip()`: remove leading and trailing whitespace.
Defined structurally over the character list so that concrete instances
evaluate inside the kernel. -/
def pyStrip (s : String) : String :=
  ⟨((s.data.dropWhile Char.isWhitespace).reverse.dropWhile Char.isWhitespace).reverse⟩

/-- Models the Python method `str.lower()`. -/
def pyLower (s : String) : String :=
  ⟨s.data.map Char.toLower⟩

/-- Models the Python test `s.startswith(pre)`. -/
def pyStartsWith (s pre : String) : Bool :=
  pre.data.isPrefixOf s.data

/-- Models the Python slice `s[:n]` (a cut counted in code points). -/
def pyTake (s : String) (n : Nat) : String :=
  ⟨s.data.take n⟩

/-- Models the Python call `sep.join(parts)`. -/
def pyJoin (sep : String) : List String → String
  | [] => ""
  | p :: rest => rest.foldl (fun acc q => acc ++ sep ++ q) p

/- ────────────────────────────────────────────────────────────────────────
   youtube_logic.py — YouTube Transcript Fetcher
   ──────────────────────────────────────────────────────────────────────── -/

/-- Constant `MIN_SEGMENTS` of `youtube_logic.py`: fewer than this many
segments means a likely wrong video. -/
def MIN_SEGMENTS : Nat := 20

/-- Constant `MAX_CANDIDATES` of `youtube_logic.py`: cap on video ids
accumulated by search. -/
def MAX_CANDIDATES : Nat := 8

/-- One caption entry as returned by the transcript-fetch API, and equally
one `{text, start, duration}` dict built from it by `get_transcript`.
The numeric time payload (`start`, `duration`) is copied verbatim and never
inspected by the repository, so it is kept at an abstract type `τ`. -/
structure CaptionEntry (τ : Type) where
  text : String
  start : τ
  duration : τ
deriving DecidableEq

/-- The segment filter inside `get_transcript`:
`[... for e in fetched if e.text and e.text.strip()]`.
A Python string is truthy iff non-empty, so the guard keeps exactly the
entries whose text is non-empty and not whitespace-only. -/
def filterSegments {τ : Type} (fetched : List (CaptionEntry τ)) : List (CaptionEntry τ) :=
  fetched.filter (fun e => e.text != "" && pyStrip e.text != "")

/-- Function `get_transcript` of `youtube_logic.py`, embedded over the list of per-candidate
fetch outcomes in search order: element `i` is the outcome of
`api.fetch(candidates[i])` — `Except.error` when the fetch raised, and
`Except.ok` with the raw caption entries when it returned.  An empty
candidate list (search found nothing) yields `none`, as in the source. -/
def get_transcript {τ : Type} :
    List (Except String (List (CaptionEntry τ))) → Option (List (CaptionEntry τ))
  | [] => none
  | r :: rest =>
    match r with
    | .error _ => get_transcript rest
    | .ok fetched =>
      let segments := filterSegments fetched
      if segments.length < MIN_SEGMENTS then get_transcript rest
      else some segments

/-- A candidate "passes the threshold" when its fetch succeeded and at
least `MIN_SEGMENTS` entries survive the empty-text filter. -/
def candidatePasses {τ : Type} (r : Except String (List (CaptionEntry τ))) : Bool :=
  match r with
  | .error _ => false
  | .ok fetched => decide (MIN_SEGMENTS ≤ (filterSegments fetched).length)

/-- C1: the transcript resolver discards empty/whitespace-only segments,
returns the filtered transcript of the first candidate (in search order)
with at least `MIN_SEGMENTS = 20` surviving segments, returns `none` when
every candidate is exhausted without one passing, never returns fewer than
20 non-empty segments, and a fetch failure on one candidate only advances
to the next candidate. -/
theorem get_transcript_resolver_correct {τ : Type}
    (results : List (Except String (List (CaptionEntry τ)))) :
    (get_transcript results = none ↔ ∀ r ∈ results, candidatePasses r = false)
    ∧ (∀ segs, get_transcript results = some segs →
        MIN_SEGMENTS ≤ segs.length
        ∧ (∀ s ∈ segs, pyStrip s.text ≠ "")
        ∧ ∃ pre fetched post,
            results = pre ++ Except.ok fetched :: post
            ∧ (∀ r ∈ pre, candidatePasses r = false)
            ∧ segs = filterSegments fetched)
    ∧ (∀ e, get_transcript (Except.error e :: results) = get_transcript results) := by
  refine ⟨?_, ?_, fun e => rfl⟩
  · induction results with
    | nil => simp [get_transcript]
    | cons r rest ih =>
      cases r with
      | error e =>
        simpa [get_transcript, candidatePasses] using ih
      | ok fetched =>
        by_cases h : (filterSegments fetched).length < MIN_SEGMENTS
        · have hp : candidatePasses (τ := τ) (Except.ok fetched) = false := by
            simp [candidatePasses]; omega
          simpa [get_transcript, h, hp] using ih
        · have hp : candidatePasses (τ := τ) (Except.ok fetched) = true := by
            simp [candidatePasses]; omega
          simp [get_transcript, h, hp]
  · induction results with
    | nil => intro segs hs; simp [get_transcript] at hs
    | cons r rest ih =>
      intro segs hs
      cases r with
      | error e =>
        have hs' : get_transcript rest = some segs := by
          simpa [get_transcript] using hs
        obtain ⟨h1, h2, pre, fetched, post, hsplit, hpre, hsegs⟩ := ih segs hs'
        exact ⟨h1, h2, Except.error e :: pre, fetched, post, by simp [hsplit],
          by
            intro r hr
            rcases List.mem_cons.mp hr with h | h
            · subst h; rfl
            · exact hpre r h,
          hsegs⟩
      | ok fetched =>
        by_cases h : (filterSegments fetched).length < MIN_SEGMENTS
        · have hs' : get_transcript rest = some segs := by
            simpa [get_transcript, h] using hs
          obtain ⟨h1, h2, pre, f, post, hsplit, hpre, hsegs⟩ := ih segs hs'
          refine ⟨h1, h2, Except.ok fetched :: pre, f, post, by simp [hsplit], ?_, hsegs⟩
          intro r hr
          rcases List.mem_cons.mp hr with hh | hh
          · subst hh; simp [candidatePasses]; omega
          · exact hpre r hh
        · have hsegs : segs = filterSegments fetched := by
            have : some (filterSegments fetched) = some segs := by
              simpa [get_transcript, h] using hs
            exact (Option.some.injEq _ _ ▸ this).symm
          refine ⟨?_, ?_, [], fetched, rest, by simp, by simp, hsegs⟩
          · rw [hsegs]; omega
          · intro s hsmem
            rw [hsegs] at hsmem
            simp only [filterSegments, List.mem_filter, Bool.and_eq_true, bne_iff_ne,
              ne_eq] at hsmem
            exact hsmem.2.2

/-- Witness for C1 at a concrete candidate list: a failing fetch is skipped
and a 25-segment transcript behind it is returned. -/
theorem get_transcript_resolver_correct_witness :
    get_transcript (τ := Unit)
        [Except.error "network down",
         Except.ok (List.replicate 25 ⟨"hello council", (), ()⟩)]
      = some (List.replicate 25 ⟨"hello council", (), ()⟩) := by
  rw [(get_transcript_resolver_correct (τ := Unit)
        [Except.ok (List.replicate 25 ⟨"hello council", (), ()⟩)]).2.2 "network down"]
  decide

/- ────────────────────────────────────────────────────────────────────────
   scraper.py — IQM2 RSS Feed Parser
   ──────────────────────────────────────────────────────────────────────── -/

/-- Stable insertion sort, modelling the Python built-in `sorted` /
`list.sort` (both stable).  `le` is the comparison induced by the sort key;
an element is inserted before the first resident it compares
less-or-equal to, which preserves the original order of equal keys. -/
def insertLe {α : Type} (le : α → α → Bool) (x : α) : List α → List α
  | [] => [x]
  | y :: ys => if le x y then x :: y :: ys else y :: insertLe le x ys

/-- Stable sort by repeated insertion (see `insertLe`). -/
def stableSort {α : Type} (le : α → α → Bool) : List α → List α
  | [] => []
  | x :: xs => insertLe le x (stableSort le xs)

/-- Constant `IQM2_BASE` of `scraper.py`. -/
def IQM2_BASE : String := "https://sanramonca.iqm2.com/Citizens"

/-- Constant `TIMEOUT` of `scraper.py`: per-request timeout in seconds. -/
def TIMEOUT : Nat := 15

/-- Constant `MAX_RETRIES` of `scraper.py`: total fetch attempts. -/
def MAX_RETRIES : Nat := 2

/-- Function `_abs` of `scraper.py`: makes relative IQM2 hrefs absolute and
returns `none` (not the empty string) for empty or whitespace-only input. -/
def _abs (href : Option String) : Option String :=
  match href with
  | none => none
  | some h =>
    if h = "" ∨ pyStrip h = "" then none
    else
      let t := pyStrip h
      if pyStartsWith t "http" then some t
      else some (IQM2_BASE ++ "/" ++ String.mk (t.data.dropWhile (fun c => c == '/')))

/-- A calendar date, the canonical form of the `iso` key
(`m_dt.strftime("%Y-%m-%d")`).  The zero-padded ISO strings the source
sorts on compare exactly as this lexicographic triple. -/
structure Date where
  year : Nat
  month : Nat
  day : Nat
deriving DecidableEq

/-- Comparison of canonical dates, matching comparison both of parsed
`datetime` values and of their zero-padded ISO renderings. -/
def dateLe (a b : Date) : Bool :=
  Nat.blt a.year b.year
  || (a.year == b.year && Nat.blt a.month b.month)
  || (a.year == b.year && a.month == b.month && Nat.ble a.day b.day)

/-- Zero-pad a number to two digits, as `strftime` does for `%m` / `%d`. -/
def pad2 (n : Nat) : String := if n < 10 then "0" ++ toString n else toString n

/-- Zero-pad a year to four digits, as `strftime` does for `%Y`. -/
def pad4 (n : Nat) : String :=
  if n < 10 then "000" ++ toString n
  else if n < 100 then "00" ++ toString n
  else if n < 1000 then "0" ++ toString n
  else toString n

/-- Rendering `m_dt.strftime("%m/%d/%Y")`, the display date of a record. -/
def displayDate (d : Date) : String :=
  pad2 d.month ++ "/" ++ pad2 d.day ++ "/" ++ pad4 d.year

/-- One anchor tag with an `href` attribute inside a feed `div` block, as
delivered by the external HTML parser (`soup.find_all("a", href=True)`). -/
structure FeedLink where
  text : String
  href : String
deriving DecidableEq

/-- One feed `div` block that carries an `h2` heading, as delivered by the
external HTML parser; `heading` is the stripped `h2` text. -/
structure FeedDiv where
  heading : String
  links : List FeedLink
deriving DecidableEq

/-- One meeting record produced by `_fetch_rss` (the dict built at the
`by_date[iso]` initialisation site, subsequently merged into). -/
@[ext] structure Meeting where
  name : String
  date : String
  iso : Date
  detail_url : Option String
  agenda_url : Option String
  minutes_url : Option String
  has_webcast : Bool
  webcast_url : Option String
deriving DecidableEq

/-- The fresh record installed at `by_date[iso]` on first sight of a date. -/
def freshMeeting (dt : Date) : Meeting :=
  { name := "City Council"
    date := displayDate dt
    iso := dt
    detail_url := none
    agenda_url := none
    minutes_url := none
    has_webcast := false
    webcast_url := none }

/-- The `div_links` comprehension of `_fetch_rss`: pair each anchor text
with the absolutised href, dropping anchors whose `_abs` result is falsy. -/
def divLinks (links : List FeedLink) : List (String × String) :=
  links.filterMap (fun a => (_abs (some a.href)).map (fun h => (a.text, h)))

/-- The `- Agenda -` merge branch of `_fetch_rss`: first
`Detail_Meeting` link into `detail_url` and first `FileOpen`-plus-`Type=14`
link into `agenda_url` (both only when still unset), then any `FileOpen`
link as an `agenda_url` fallback. -/
def agendaStep (e : Meeting) (p : String × String) : Meeting :=
  let e := if strContains p.2 "Detail_Meeting" && e.detail_url.isNone
           then { e with detail_url := some p.2 } else e
  if strContains p.2 "FileOpen" && strContains p.2 "Type=14" && e.agenda_url.isNone
  then { e with agenda_url := some p.2 } else e

def applyAgendaLinks (links : List (String × String)) (e : Meeting) : Meeting :=
  let e := links.foldl agendaStep e
  if e.agenda_url.isNone then
    match links.find? (fun p => strContains p.2 "FileOpen") with
    | some p => { e with agenda_url := some p.2 }
    | none => e
  else e

/-- The `- Minutes -` merge branch of `_fetch_rss`: first `FileOpen` link,
falling back to a link whose visible text contains "minute" or whose URL
carries `Type=16`. -/
def applyMinutesLinks (links : List (String × String)) (e : Meeting) : Meeting :=
  let e := match links.find? (fun p => strContains p.2 "FileOpen") with
    | some p => { e with minutes_url := some p.2 }
    | none => e
  if e.minutes_url.isNone then
    match links.find? (fun p => strContains (pyLower p.1) "minute" || strContains p.2 "Type=16") with
    | some p => { e with minutes_url := some p.2 }
    | none => e
  else e

/-- The `- Webcast -` merge branch of `_fetch_rss`: record that a webcast
entry exists and take this entry's own `Detail_Meeting` link, if any. -/
def applyWebcastLinks (links : List (String × String)) (e : Meeting) : Meeting :=
  let e := { e with has_webcast := true }
  match links.find? (fun p => strContains p.2 "Detail_Meeting") with
  | some p => { e with webcast_url := some p.2 }
  | none => e

/-- The `if / elif` classification of a heading by its sub-type token,
applied to the record under merge. -/
def applyHeading (heading : String) (links : List (String × String)) (e : Meeting) : Meeting :=
  if strContains heading "- Agenda -" then applyAgendaLinks links e
  else if strContains heading "- Minutes -" then applyMinutesLinks links e
  else if strContains heading "- Webcast -" then applyWebcastLinks links e
  else e

/-- Lookup in the insertion-ordered `by_date` association list. -/
def lookupDate (byDate : List (Date × Meeting)) (dt : Date) : Option Meeting :=
  match byDate with
  | [] => none
  | (k, v) :: rest => if k = dt then some v else lookupDate rest dt

/-- In-place update of the `by_date` association list at a key. -/
def updateDate (byDate : List (Date × Meeting)) (dt : Date) (f : Meeting → Meeting) :
    List (Date × Meeting) :=
  match byDate with
  | [] => []
  | (k, v) :: rest =>
    if k = dt then (k, f v) :: rest else (k, v) :: updateDate rest dt f

/-- The per-`div` body of the `_fetch_rss` loop: skip non-council and
cancelled headings, skip headings with no parseable date, otherwise create
the record for the date on first sight and merge this entry into it.
The regex/`strptime` heading-date extractor `_parse_date` wraps external
library behaviour and is passed in as `parseDate`. -/
def processDiv (parseDate : String → Option Date)
    (byDate : List (Date × Meeting)) (div : FeedDiv) : List (Date × Meeting) :=
  if !(strContains div.heading "City Council") || strContains div.heading "Cancelled" then
    byDate
  else
    match parseDate div.heading with
    | none => byDate
    | some dt =>
      let links := divLinks div.links
      let byDate :=
        if (lookupDate byDate dt).isSome then byDate
        else byDate ++ [(dt, freshMeeting dt)]
      updateDate byDate dt (applyHeading div.heading links)

/-- One parse pass over the div blocks of a feed document: the grouping
loop of `_fetch_rss` followed by
`sorted(by_date.values(), key=iso, reverse=True)`. -/
def parseDivs (parseDate : String → Option Date) (divs : List FeedDiv) : List Meeting :=
  stableSort (fun a b => dateLe b.iso a.iso)
    ((divs.foldl (processDiv parseDate) []).map Prod.snd)

/-- Observable actions of the retry loop in `_fetch_rss_html`. -/
inductive NetAction where
  | request (timeout : Nat)
  | sleep (seconds : Nat)
deriving DecidableEq

/-- Whether a trace action is an HTTP request. -/
def NetAction.isRequest : NetAction → Bool
  | .request _ => true
  | .sleep _ => false

/-- The body of the `for attempt in range(1, MAX_RETRIES + 1)` loop of
`_fetch_rss_html`: issue the request with `TIMEOUT`; on success return the
text, on failure sleep 2 seconds unless this was the last attempt.  `net`
gives the outcome of the attempt with each number, and the returned trace
records the requests and sleeps performed. -/
def fetchAttempts (net : Nat → Except String String) :
    Nat → Nat → Option String × List NetAction
  | _, 0 => (none, [])
  | attempt, remaining + 1 =>
    match net attempt with
    | .ok text => (some text, [NetAction.request TIMEOUT])
    | .error _ =>
      if remaining = 0 then (none, [NetAction.request TIMEOUT])
      else
        let rest := fetchAttempts net (attempt + 1) remaining
        (rest.1, NetAction.request TIMEOUT :: NetAction.sleep 2 :: rest.2)

/-- Function `_fetch_rss_html` of `scraper.py`: raw feed text with retry
logic, `none` after all attempts fail. -/
def _fetch_rss_html (net : Nat → Except String String) : Option String × List NetAction :=
  fetchAttempts net 1 MAX_RETRIES

/-- Function `_fetch_rss` of `scraper.py`: fetch, then parse the document
into merged meeting records.  The external pieces enter as arguments:
`net` the HTTP layer, `parseHtml` the BeautifulSoup extraction of div
blocks, `parseDate` the `_parse_date` heading-date extractor.  A falsy
(`None` or empty) document yields the empty list. -/
def _fetch_rss (parseDate : String → Option Date) (parseHtml : String → List FeedDiv)
    (net : Nat → Except String String) : List Meeting :=
  match (_fetch_rss_html net).1 with
  | none => []
  | some html => if html = "" then [] else parseDivs parseDate (parseHtml html)

/-- Split a character list at dashes (all occurrences, keeping empties). -/
def splitDash : List Char → List Char → List (List Char)
  | [], acc => [acc.reverse]
  | c :: cs, acc =>
    if c = '-' then acc.reverse :: splitDash cs [] else splitDash cs (c :: acc)

/-- Gregorian leap-year rule, as validated by `datetime`. -/
def isLeapYear (y : Nat) : Bool :=
  (y % 4 == 0 && y % 100 != 0) || (y % 400 == 0)

/-- Days in a month, as validated by `datetime`. -/
def daysInMonth (y m : Nat) : Nat :=
  if m = 2 then (if isLeapYear y then 29 else 28)
  else if m = 4 ∨ m = 6 ∨ m = 9 ∨ m = 11 then 30
  else 31

/-- Numeric value of a digit string. -/
def digitsToNat (l : List Char) : Nat :=
  l.foldl (fun acc c => acc * 10 + (c.toNat - 48)) 0

/-- Models `datetime.strptime(s, "%Y-%m-%d")`: exactly four year digits,
one or two month and day digits, and a valid calendar date; anything else
(including trailing text) fails. -/
def parseIso (s : String) : Option Date :=
  match splitDash s.data [] with
  | [ys, ms, ds] =>
    if ys.length = 4 ∧ ys.all Char.isDigit = true
        ∧ 1 ≤ ms.length ∧ ms.length ≤ 2 ∧ ms.all Char.isDigit = true
        ∧ 1 ≤ ds.length ∧ ds.length ≤ 2 ∧ ds.all Char.isDigit = true then
      let y := digitsToNat ys
      let m := digitsToNat ms
      let d := digitsToNat ds
      if 1 ≤ m ∧ m ≤ 12 ∧ 1 ≤ d ∧ d ≤ daysInMonth y m then some ⟨y, m, d⟩
      else none
    else none
  | _ => none

/-- Function `get_meetings_in_range` of `scraper.py` (the
`fetch_meetings` operation of the spec): parse the two bounds, return `[]`
on a parse failure, otherwise filter the parsed feed to the inclusive
range and sort newest-first. -/
def get_meetings_in_range (parseDate : String → Option Date)
    (parseHtml : String → List FeedDiv) (net : Nat → Except String String)
    (start_date end_date : String) : List Meeting :=
  match parseIso start_date, parseIso end_date with
  | some start_dt, some end_dt =>
    let filtered := (_fetch_rss parseDate parseHtml net).filter
      (fun m => dateLe start_dt m.iso && dateLe m.iso end_dt)
    stableSort (fun a b => dateLe b.iso a.iso) filtered
  | _, _ => []

/- ────────────────────────────────────────────────────────────────────────
   Order and sorting lemmas
   ──────────────────────────────────────────────────────────────────────── -/

theorem dateLe_iff (a b : Date) : dateLe a b = true ↔
    (a.year < b.year ∨ (a.year = b.year ∧
      (a.month < b.month ∨ (a.month = b.month ∧ a.day ≤ b.day)))) := by
  simp only [dateLe, Bool.or_eq_true, Bool.and_eq_true, Nat.blt_eq, Nat.ble_eq, beq_iff_eq]
  omega

theorem dateLe_trans {a b c : Date} (h1 : dateLe a b = true) (h2 : dateLe b c = true) :
    dateLe a c = true := by
  rw [dateLe_iff] at *
  omega

theorem dateLe_total (a b : Date) : (dateLe a b || dateLe b a) = true := by
  have h1 := dateLe_iff a b
  have h2 := dateLe_iff b a
  rw [Bool.or_eq_true, h1, h2]
  omega

theorem insertLe_perm {α : Type} (le : α → α → Bool) (x : α) (l : List α) :
    List.Perm (insertLe le x l) (x :: l) := by
  induction l with
  | nil => simp [insertLe]
  | cons y ys ih =>
    simp only [insertLe]
    split
    · exact List.Perm.refl _
    · exact (ih.cons y).trans (List.Perm.swap x y ys)

theorem stableSort_perm {α : Type} (le : α → α → Bool) (l : List α) :
    List.Perm (stableSort le l) l := by
  induction l with
  | nil => simp [stableSort]
  | cons x xs ih => exact (insertLe_perm le x _).trans (ih.cons x)

theorem mem_stableSort {α : Type} {le : α → α → Bool} {a : α} {l : List α} :
    a ∈ stableSort le l ↔ a ∈ l :=
  (stableSort_perm le l).mem_iff

@[simp] theorem stableSort_nil {α : Type} (le : α → α → Bool) :
    stableSort le [] = [] := rfl

theorem pairwise_insertLe {α : Type} (le : α → α → Bool)
    (htrans : ∀ a b c, le a b = true → le b c = true → le a c = true)
    (htotal : ∀ a b, (le a b || le b a) = true)
    {x : α} {l : List α} (h : l.Pairwise (fun a b => le a b = true)) :
    (insertLe le x l).Pairwise (fun a b => le a b = true) := by
  induction l with
  | nil => simp [insertLe]
  | cons y ys ih =>
    rw [List.pairwise_cons] at h
    simp only [insertLe]
    split
    · rename_i hxy
      refine List.pairwise_cons.mpr ⟨?_, List.pairwise_cons.mpr ⟨h.1, h.2⟩⟩
      intro z hz
      rcases List.mem_cons.mp hz with hz | hz
      · subst hz; exact hxy
      · exact htrans x y z hxy (h.1 z hz)
    · rename_i hxy
      have hyx : le y x = true := by
        have := htotal x y
        simp [Bool.or_eq_true] at this
        rcases this with h1 | h1
        · exact absurd h1 hxy
        · exact h1
      refine List.pairwise_cons.mpr ⟨?_, ih h.2⟩
      intro z hz
      have hz2 : z ∈ x :: ys := (insertLe_perm le x ys).mem_iff.mp hz
      rcases List.mem_cons.mp hz2 with hz3 | hz3
      · exact hz3 ▸ hyx
      · exact h.1 z hz3

theorem pairwise_stableSort {α : Type} (le : α → α → Bool)
    (htrans : ∀ a b c, le a b = true → le b c = true → le a c = true)
    (htotal : ∀ a b, (le a b || le b a) = true) (l : List α) :
    (stableSort le l).Pairwise (fun a b => le a b = true) := by
  induction l with
  | nil => simp [stableSort]
  | cons x xs ih => exact pairwise_insertLe le htrans htotal ih

/- ────────────────────────────────────────────────────────────────────────
   A sample feed used for concrete counterexamples and witnesses
   ──────────────────────────────────────────────────────────────────────── -/

/-- Heading of a sample agenda entry. -/
def sampleHeadingA : String := "City Council - Agenda - Jun 15, 2025 7:00 PM"

/-- A sample agenda div block with a file link and a detail link. -/
def sampleDivA : FeedDiv :=
  ⟨sampleHeadingA,
   [⟨"Agenda", "/FileOpen.aspx?Type=14&ID=1"⟩, ⟨"Detail", "Detail_Meeting.aspx?ID=9"⟩]⟩

/-- A sample heading-date extractor recognising the sample heading. -/
def samplePd : String → Option Date :=
  fun h => if h = sampleHeadingA then some ⟨2025, 6, 15⟩ else none

/-- A sample network that always succeeds. -/
def sampleNet : Nat → Except String String := fun _ => Except.ok "<feed>"

/-- A sample HTML extraction producing the one sample div. -/
def samplePh : String → List FeedDiv := fun _ => [sampleDivA]

/- ────────────────────────────────────────────────────────────────────────
   C4 — range filter correctness and descending order
   ──────────────────────────────────────────────────────────────────────── -/

/-- C4: for start ≤ end, every record returned by the range fetch has its
canonical date inside the inclusive range, and the returned sequence is
sorted by canonical date descending. -/
theorem fetch_meetings_range_and_order
    (parseDate : String → Option Date) (parseHtml : String → List FeedDiv)
    (net : Nat → Except String String) (s e : String) (sd ed : Date)
    (hs : parseIso s = some sd) (he : parseIso e = some ed)
    (_hrange : dateLe sd ed = true) :
    (∀ m ∈ get_meetings_in_range parseDate parseHtml net s e,
        dateLe sd m.iso = true ∧ dateLe m.iso ed = true)
    ∧ (get_meetings_in_range parseDate parseHtml net s e).Pairwise
        (fun a b => dateLe b.iso a.iso = true) := by
  constructor
  · intro m hm
    simp only [get_meetings_in_range, hs, he] at hm
    have h2 := (List.mem_filter.mp (mem_stableSort.mp hm)).2
    simp only [Bool.and_eq_true] at h2
    exact h2
  · simp only [get_meetings_in_range, hs, he]
    exact pairwise_stableSort (fun a b : Meeting => dateLe b.iso a.iso)
      (fun a b c h1 h2 => dateLe_trans h2 h1)
      (fun (a b : Meeting) => dateLe_total b.iso a.iso) _

/-- Witness for C4 on the sample feed and the range 2025-01-01..2026-12-31. -/
theorem fetch_meetings_range_and_order_witness :
    (parseIso "2025-01-01" = some ⟨2025, 1, 1⟩
      ∧ parseIso "2026-12-31" = some ⟨2026, 12, 31⟩
      ∧ dateLe ⟨2025, 1, 1⟩ ⟨2026, 12, 31⟩ = true)
    ∧ ((∀ m ∈ get_meetings_in_range samplePd samplePh sampleNet "2025-01-01" "2026-12-31",
          dateLe ⟨2025, 1, 1⟩ m.iso = true ∧ dateLe m.iso ⟨2026, 12, 31⟩ = true)
       ∧ (get_meetings_in_range samplePd samplePh sampleNet
            "2025-01-01" "2026-12-31").Pairwise (fun a b => dateLe b.iso a.iso = true)) :=
  ⟨⟨by decide, by decide, by decide⟩,
   fetch_meetings_range_and_order samplePd samplePh sampleNet _ _ _ _
     (by decide) (by decide) (by decide)⟩

/- ────────────────────────────────────────────────────────────────────────
   C2 — behaviour on invalid ranges
   ──────────────────────────────────────────────────────────────────────── -/

/-- C2 (amended): on an unparsable bound the range fetch logs and returns
the empty list, and on a swapped range (start after end) it returns the
empty list; no error value is raised in either case. -/
theorem invalid_range_yields_empty
    (parseDate : String → Option Date) (parseHtml : String → List FeedDiv)
    (net : Nat → Except String String) (s e : String) :
    (parseIso s = none ∨ parseIso e = none →
        get_meetings_in_range parseDate parseHtml net s e = [])
    ∧ (∀ sd ed, parseIso s = some sd → parseIso e = some ed → dateLe sd ed = false →
        get_meetings_in_range parseDate parseHtml net s e = []) := by
  constructor
  · intro h
    rcases h with h | h
    · cases he : parseIso e <;> simp [get_meetings_in_range, h, he]
    · cases hs : parseIso s <;> simp [get_meetings_in_range, hs, h]
  · intro sd ed hs he hlt
    have hfil : ∀ m : Meeting, (dateLe sd m.iso && dateLe m.iso ed) = false := by
      intro m
      cases h1 : dateLe sd m.iso with
      | false => simp
      | true =>
        cases h2 : dateLe m.iso ed with
        | false => simp
        | true => exact absurd (dateLe_trans h1 h2) (by simp [hlt])
    simp only [get_meetings_in_range, hs, he]
    have hnil : (_fetch_rss parseDate parseHtml net).filter
        (fun m => dateLe sd m.iso && dateLe m.iso ed) = [] := by
      rw [List.filter_eq_nil_iff]
      intro a _
      simp [hfil a]
    rw [hnil]
    rfl

/-- Counterexample for C2 as stated: with a reachable feed containing a
2025-06-15 council meeting, a swapped range and an unparsable bound both
return the empty list — exactly the silent empty result the claim rules
out — while the same call with a valid range returns the meeting; no
`InvalidRangeError` exists anywhere in the code. -/
theorem invalid_range_counterexample :
    get_meetings_in_range samplePd samplePh sampleNet "2026-12-31" "2025-01-01" = []
    ∧ get_meetings_in_range samplePd samplePh sampleNet "not-a-date" "2026-12-31" = []
    ∧ get_meetings_in_range samplePd samplePh sampleNet "2025-01-01" "2026-12-31"
        = [{ name := "City Council", date := "06/15/2025", iso := ⟨2025, 6, 15⟩,
             detail_url := some "https://sanramonca.iqm2.com/Citizens/Detail_Meeting.aspx?ID=9",
             agenda_url := some "https://sanramonca.iqm2.com/Citizens/FileOpen.aspx?Type=14&ID=1",
             minutes_url := none, has_webcast := false, webcast_url := none }] := by
  refine ⟨by decide, by decide, by decide⟩

/-- Witness for C2 (amended) at concrete invalid inputs. -/
theorem invalid_range_yields_empty_witness :
    (parseIso "not-a-date" = none
      ∧ get_meetings_in_range samplePd samplePh sampleNet "not-a-date" "2026-12-31" = [])
    ∧ (parseIso "2026-12-31" = some ⟨2026, 12, 31⟩ ∧ parseIso "2025-01-01" = some ⟨2025, 1, 1⟩
      ∧ dateLe ⟨2026, 12, 31⟩ ⟨2025, 1, 1⟩ = false
      ∧ get_meetings_in_range samplePd samplePh sampleNet "2026-12-31" "2025-01-01" = []) :=
  ⟨⟨by decide,
    (invalid_range_yields_empty samplePd samplePh sampleNet "not-a-date" "2026-12-31").1
      (Or.inl (by decide))⟩,
   ⟨by decide, by decide, by decide,
    (invalid_range_yields_empty samplePd samplePh sampleNet "2026-12-31" "2025-01-01").2
      ⟨2026, 12, 31⟩ ⟨2025, 1, 1⟩ (by decide) (by decide) (by decide)⟩⟩

/- ────────────────────────────────────────────────────────────────────────
   C5 — bounded retries and silent failure
   ──────────────────────────────────────────────────────────────────────── -/

/-- Whether a div block survives the heading filter and date extraction. -/
def divMatches (parseDate : String → Option Date) (div : FeedDiv) : Bool :=
  strContains div.heading "City Council" && !strContains div.heading "Cancelled"
    && (parseDate div.heading).isSome

theorem processDiv_skip (parseDate : String → Option Date)
    (byDate : List (Date × Meeting)) (div : FeedDiv)
    (h : divMatches parseDate div = false) :
    processDiv parseDate byDate div = byDate := by
  unfold processDiv
  cases hc : strContains div.heading "City Council" with
  | false => simp [hc]
  | true =>
    cases hx : strContains div.heading "Cancelled" with
    | true => simp [hc, hx]
    | false =>
      have hd : parseDate div.heading = none := by
        unfold divMatches at h
        rw [hc, hx] at h
        cases hp : parseDate div.heading
        · rfl
        · rw [hp] at h; simp at h
      simp [hc, hx, hd]

theorem foldl_processDiv_skip (parseDate : String → Option Date) (divs : List FeedDiv)
    (h : ∀ d ∈ divs, divMatches parseDate d = false) (byDate : List (Date × Meeting)) :
    divs.foldl (processDiv parseDate) byDate = byDate := by
  induction divs generalizing byDate with
  | nil => rfl
  | cons d ds ih =>
    rw [List.foldl_cons, processDiv_skip parseDate byDate d (h d (by simp))]
    exact ih (fun x hx => h x (by simp [hx])) byDate

theorem get_meetings_nonmatching (parseDate : String → Option Date)
    (parseHtml : String → List FeedDiv)
    (h : ∀ html d, d ∈ parseHtml html → divMatches parseDate d = false)
    (net : Nat → Except String String) (s e : String) :
    get_meetings_in_range parseDate parseHtml net s e = [] := by
  have hfetch : _fetch_rss parseDate parseHtml net = [] := by
    unfold _fetch_rss
    cases hh : (_fetch_rss_html net).1 with
    | none => rfl
    | some html =>
      by_cases hemp : html = ""
      · simp [hemp]
      · simp only [hemp, if_false]
        unfold parseDivs
        rw [foldl_processDiv_skip parseDate _ (h html) []]
        rfl
  cases hs : parseIso s <;> cases he : parseIso e <;>
    simp [get_meetings_in_range, hs, he, hfetch]

theorem fetchAttempts_request_count (net : Nat → Except String String)
    (attempt remaining : Nat) :
    ((fetchAttempts net attempt remaining).2.filter NetAction.isRequest).length ≤ remaining := by
  induction remaining generalizing attempt with
  | zero => simp [fetchAttempts]
  | succ r ih =>
    cases hk : net attempt with
    | ok text => simp [fetchAttempts, hk, NetAction.isRequest]
    | error msg =>
      by_cases hr : r = 0
      · simp [fetchAttempts, hk, hr, NetAction.isRequest]
      · have hrec := ih (attempt + 1)
        simp [fetchAttempts, hk, hr, NetAction.isRequest, List.filter_cons]
        omega

theorem fetchAttempts_actions (net : Nat → Except String String)
    (attempt remaining : Nat) :
    ∀ a ∈ (fetchAttempts net attempt remaining).2,
      a = NetAction.request TIMEOUT ∨ a = NetAction.sleep 2 := by
  induction remaining generalizing attempt with
  | zero => simp [fetchAttempts]
  | succ r ih =>
    intro a ha
    cases hk : net attempt with
    | ok text =>
      rw [fetchAttempts, hk] at ha
      simp at ha
      exact Or.inl ha
    | error msg =>
      rw [fetchAttempts, hk] at ha
      by_cases hr : r = 0
      · simp [hr] at ha
        exact Or.inl ha
      · simp [hr] at ha
        rcases ha with ha | ha | ha
        · exact Or.inl ha
        · exact Or.inr ha
        · exact ih (attempt + 1) a ha

theorem fetchAttempts_all_fail (net : Nat → Except String String)
    (h : ∀ k, ∃ msg, net k = Except.error msg) (attempt remaining : Nat) :
    (fetchAttempts net attempt remaining).1 = none := by
  induction remaining generalizing attempt with
  | zero => rfl
  | succ r ih =>
    obtain ⟨msg, hmsg⟩ := h attempt
    by_cases hr : r = 0
    · simp [fetchAttempts, hmsg, hr]
    · simp [fetchAttempts, hmsg, hr, ih (attempt + 1)]

/-- C5: the feed fetch makes at most `MAX_RETRIES = 2` requests, every
trace action is a request with `TIMEOUT = 15` or a 2-second sleep; when
every attempt fails the fetch yields nothing, `_fetch_rss` and the range
fetch return the empty list without raising; and on a feed with no
matching items the range fetch returns the same value under every network
behaviour, so the caller cannot tell a network failure from a feed with no
matching items. -/
theorem feed_fetch_retry_policy (net : Nat → Except String String) :
    ((_fetch_rss_html net).2.filter NetAction.isRequest).length ≤ MAX_RETRIES
    ∧ (∀ a ∈ (_fetch_rss_html net).2,
        a = NetAction.request TIMEOUT ∨ a = NetAction.sleep 2)
    ∧ ((∀ k, ∃ msg, net k = Except.error msg) →
        (_fetch_rss_html net).1 = none
        ∧ (∀ parseDate parseHtml, _fetch_rss parseDate parseHtml net = [])
        ∧ (∀ parseDate parseHtml s e,
            get_meetings_in_range parseDate parseHtml net s e = []))
    ∧ (∀ (parseDate : String → Option Date) parseHtml s e net2,
        (∀ html d, d ∈ parseHtml html → divMatches parseDate d = false) →
        get_meetings_in_range parseDate parseHtml net s e
          = get_meetings_in_range parseDate parseHtml net2 s e) := by
  refine ⟨fetchAttempts_request_count net 1 MAX_RETRIES,
    fetchAttempts_actions net 1 MAX_RETRIES, ?_, ?_⟩
  · intro h
    have hnone : (_fetch_rss_html net).1 = none := fetchAttempts_all_fail net h 1 MAX_RETRIES
    have hfetch : ∀ parseDate parseHtml, _fetch_rss parseDate parseHtml net = [] := by
      intro parseDate parseHtml
      unfold _fetch_rss
      rw [hnone]
    refine ⟨hnone, hfetch, ?_⟩
    intro parseDate parseHtml s e
    cases hs : parseIso s <;> cases he : parseIso e <;>
      simp [get_meetings_in_range, hs, he, hfetch]
  · intro parseDate parseHtml s e net2 h
    rw [get_meetings_nonmatching parseDate parseHtml h net s e,
      get_meetings_nonmatching parseDate parseHtml h net2 s e]

/-- Witness for C5: a network that always fails yields the empty list at
the interface, equal to the result on an empty feed. -/
theorem feed_fetch_retry_policy_witness :
    (∀ k : Nat, ∃ msg, (fun _ => Except.error "connection refused" :
        Nat → Except String String) k = Except.error msg)
    ∧ get_meetings_in_range samplePd samplePh
        (fun _ => Except.error "connection refused") "2025-01-01" "2026-12-31" = []
    ∧ get_meetings_in_range samplePd (fun _ => []) sampleNet "2025-01-01" "2026-12-31"
        = get_meetings_in_range samplePd (fun _ => []) (fun _ => Except.error "x")
            "2025-01-01" "2026-12-31" :=
  ⟨fun _ => ⟨"connection refused", rfl⟩,
   ((feed_fetch_retry_policy (fun _ => Except.error "connection refused")).2.2.1
      (fun _ => ⟨"connection refused", rfl⟩)).2.2 samplePd samplePh "2025-01-01" "2026-12-31",
   (feed_fetch_retry_policy sampleNet).2.2.2 samplePd (fun _ => []) "2025-01-01" "2026-12-31"
      (fun _ => Except.error "x") (fun _ d hd => absurd hd (List.not_mem_nil d))⟩

/- ────────────────────────────────────────────────────────────────────────
   C9 — URLs are absolute-or-absent, never the empty string
   ──────────────────────────────────────────────────────────────────────── -/

/-- A URL field in good shape: absent, or a non-empty absolute URL. -/
def goodUrl (o : Option String) : Prop :=
  o = none ∨ ∃ u, o = some u ∧ pyStartsWith u "http" = true ∧ u ≠ ""

/-- All four URL fields of a record are in good shape. -/
def goodMeeting (m : Meeting) : Prop :=
  goodUrl m.detail_url ∧ goodUrl m.agenda_url ∧ goodUrl m.minutes_url ∧ goodUrl m.webcast_url

theorem pyStartsWith_append (s t p : String) (h : pyStartsWith s p = true) :
    pyStartsWith (s ++ t) p = true := by
  simp only [pyStartsWith, String.data_append] at *
  rw [List.isPrefixOf_iff_prefix] at *
  exact h.trans (List.prefix_append _ _)

theorem ne_empty_of_http (u : String) (h : pyStartsWith u "http" = true) : u ≠ "" := by
  intro he
  subst he
  exact absurd h (by decide)

theorem _abs_some_good (ho : Option String) (u : String) (h : _abs ho = some u) :
    pyStartsWith u "http" = true ∧ u ≠ "" := by
  cases ho with
  | none => simp [_abs] at h
  | some s =>
    unfold _abs at h
    by_cases hcond : s = "" ∨ pyStrip s = ""
    · simp [hcond] at h
    · simp only [hcond, if_false] at h
      by_cases hp : pyStartsWith (pyStrip s) "http" = true
      · rw [if_pos hp] at h
        obtain rfl : pyStrip s = u := Option.some.inj h
        exact ⟨hp, ne_empty_of_http _ hp⟩
      · rw [if_neg hp] at h
        obtain rfl := (Option.some.inj h).symm
        have hbase : pyStartsWith IQM2_BASE "http" = true := by decide
        have := pyStartsWith_append IQM2_BASE
          ("/" ++ String.mk ((pyStrip s).data.dropWhile (fun c => c == '/'))) "http" hbase
        exact ⟨this, ne_empty_of_http _ this⟩

theorem divLinks_good (links : List FeedLink) :
    ∀ p ∈ divLinks links, pyStartsWith p.2 "http" = true ∧ p.2 ≠ "" := by
  intro p hp
  obtain ⟨a, _, hfa⟩ := List.mem_filterMap.mp hp
  obtain ⟨h, hh, hph⟩ := Option.map_eq_some'.mp hfa
  have := _abs_some_good (some a.href) h hh
  obtain rfl := hph.symm
  exact this

/-- The precondition on `div_links` pairs used by the merge lemmas. -/
def goodPairs (links : List (String × String)) : Prop :=
  ∀ p ∈ links, pyStartsWith p.2 "http" = true ∧ p.2 ≠ ""

theorem goodUrl_some_of_mem {links : List (String × String)} (hl : goodPairs links)
    {p : String × String} (hp : p ∈ links) : goodUrl (some p.2) :=
  Or.inr ⟨p.2, rfl, (hl p hp).1, (hl p hp).2⟩

theorem agendaStep_good {links : List (String × String)} (hl : goodPairs links)
    {p : String × String} (hpmem : p ∈ links) {e : Meeting} (he : goodMeeting e) :
    goodMeeting (agendaStep e p) := by
  obtain ⟨hd, ha, hm, hw⟩ := he
  have hg := goodUrl_some_of_mem hl hpmem
  by_cases h1 : (strContains p.2 "Detail_Meeting" && e.detail_url.isNone) = true <;>
    by_cases h2 : (strContains p.2 "FileOpen" && strContains p.2 "Type=14"
        && e.agenda_url.isNone) = true <;>
      simp only [agendaStep, h1, h2, if_true, if_false, Bool.false_eq_true, ite_true,
        ite_false]
  · exact ⟨hg, hg, hm, hw⟩
  · exact ⟨hg, ha, hm, hw⟩
  · exact ⟨hd, hg, hm, hw⟩
  · exact ⟨hd, ha, hm, hw⟩

theorem foldl_agendaStep_good {links : List (String × String)} (hl : goodPairs links)
    (ls : List (String × String)) (hsub : ∀ p ∈ ls, p ∈ links) :
    ∀ e : Meeting, goodMeeting e → goodMeeting (ls.foldl agendaStep e) := by
  induction ls with
  | nil => intro e he; exact he
  | cons p ps ih =>
    intro e he
    rw [List.foldl_cons]
    exact ih (fun q hq => hsub q (by simp [hq])) _
      (agendaStep_good hl (hsub p (by simp)) he)

theorem applyAgendaLinks_good {links : List (String × String)} (hl : goodPairs links)
    {e : Meeting} (he : goodMeeting e) : goodMeeting (applyAgendaLinks links e) := by
  unfold applyAgendaLinks
  have hmain := foldl_agendaStep_good hl links (fun p hp => hp) e he
  by_cases hnone : (links.foldl agendaStep e).agenda_url.isNone = true
  · rw [if_pos hnone]
    cases hfind : links.find? (fun p => strContains p.2 "FileOpen") with
    | none => exact hmain
    | some p =>
      have hpmem := List.mem_of_find?_eq_some hfind
      obtain ⟨hd, ha, hm, hw⟩ := hmain
      exact ⟨hd, goodUrl_some_of_mem hl hpmem, hm, hw⟩
  · rw [if_neg hnone]
    exact hmain

theorem applyMinutesLinks_good {links : List (String × String)} (hl : goodPairs links)
    {e : Meeting} (he : goodMeeting e) : goodMeeting (applyMinutesLinks links e) := by
  unfold applyMinutesLinks
  obtain ⟨hd, ha, hm, hw⟩ := he
  have hstage1 : goodMeeting (match links.find? (fun p => strContains p.2 "FileOpen") with
      | some p => { e with minutes_url := some p.2 }
      | none => e) := by
    cases hfind : links.find? (fun p => strContains p.2 "FileOpen") with
    | none => exact ⟨hd, ha, hm, hw⟩
    | some p =>
      exact ⟨hd, ha, goodUrl_some_of_mem hl (List.mem_of_find?_eq_some hfind), hw⟩
  set e2 := (match links.find? (fun p => strContains p.2 "FileOpen") with
      | some p => { e with minutes_url := some p.2 }
      | none => e) with he2
  by_cases hnone : e2.minutes_url.isNone = true
  · rw [if_pos hnone]
    cases hfind2 : links.find?
        (fun p => strContains (pyLower p.1) "minute" || strContains p.2 "Type=16") with
    | none => exact hstage1
    | some p =>
      obtain ⟨h1, h2, _, h4⟩ := hstage1
      exact ⟨h1, h2, goodUrl_some_of_mem hl (List.mem_of_find?_eq_some hfind2), h4⟩
  · rw [if_neg hnone]
    exact hstage1

theorem applyWebcastLinks_good {links : List (String × String)} (hl : goodPairs links)
    {e : Meeting} (he : goodMeeting e) : goodMeeting (applyWebcastLinks links e) := by
  unfold applyWebcastLinks
  obtain ⟨hd, ha, hm, hw⟩ := he
  cases hfind : links.find? (fun p => strContains p.2 "Detail_Meeting") with
  | none => exact ⟨hd, ha, hm, hw⟩
  | some p =>
    exact ⟨hd, ha, hm, goodUrl_some_of_mem hl (List.mem_of_find?_eq_some hfind)⟩

theorem applyHeading_good (heading : String) {links : List (String × String)}
    (hl : goodPairs links) {e : Meeting} (he : goodMeeting e) :
    goodMeeting (applyHeading heading links e) := by
  unfold applyHeading
  split
  · exact applyAgendaLinks_good hl he
  · split
    · exact applyMinutesLinks_good hl he
    · split
      · exact applyWebcastLinks_good hl he
      · exact he

theorem freshMeeting_good (dt : Date) : goodMeeting (freshMeeting dt) := by
  refine ⟨Or.inl rfl, Or.inl rfl, Or.inl rfl, Or.inl rfl⟩

theorem updateDate_good {byDate : List (Date × Meeting)} {dt : Date} {f : Meeting → Meeting}
    (hb : ∀ kv ∈ byDate, goodMeeting kv.2)
    (hf : ∀ v, goodMeeting v → goodMeeting (f v)) :
    ∀ kv ∈ updateDate byDate dt f, goodMeeting kv.2 := by
  induction byDate with
  | nil => intro kv hkv; simp [updateDate] at hkv
  | cons kv0 rest ih =>
    intro kv hkv
    obtain ⟨k, v⟩ := kv0
    unfold updateDate at hkv
    by_cases hk : k = dt
    · rw [if_pos hk] at hkv
      rcases List.mem_cons.mp hkv with h | h
      · subst h; exact hf v (hb (k, v) (by simp))
      · exact hb kv (by simp [h])
    · rw [if_neg hk] at hkv
      rcases List.mem_cons.mp hkv with h | h
      · subst h; exact hb (k, v) (by simp)
      · exact ih (fun q hq => hb q (by simp [hq])) kv h

theorem processDiv_good (parseDate : String → Option Date)
    {byDate : List (Date × Meeting)} (hb : ∀ kv ∈ byDate, goodMeeting kv.2)
    (div : FeedDiv) : ∀ kv ∈ processDiv parseDate byDate div, goodMeeting kv.2 := by
  unfold processDiv
  split
  · exact hb
  · cases hpd : parseDate div.heading with
    | none => exact hb
    | some dt =>
      have hb2 : ∀ kv ∈ (if (lookupDate byDate dt).isSome then byDate
          else byDate ++ [(dt, freshMeeting dt)]), goodMeeting kv.2 := by
        split
        · exact hb
        · intro kv hkv
          rcases List.mem_append.mp hkv with h | h
          · exact hb kv h
          · simp at h
            rw [h]
            exact freshMeeting_good dt
      exact updateDate_good hb2
        (fun v hv => applyHeading_good div.heading (divLinks_good div.links) hv)

theorem foldl_processDiv_good (parseDate : String → Option Date) (divs : List FeedDiv)
    {byDate : List (Date × Meeting)} (hb : ∀ kv ∈ byDate, goodMeeting kv.2) :
    ∀ kv ∈ divs.foldl (processDiv parseDate) byDate, goodMeeting kv.2 := by
  induction divs generalizing byDate with
  | nil => exact hb
  | cons d ds ih =>
    rw [List.foldl_cons]
    exact ih (processDiv_good parseDate hb d)

/-- C9: a link with empty or whitespace-only target resolves to `none`,
every resolved link is a non-empty absolute URL, and every record of a
parse pass has each URL field either absent or a non-empty absolute URL —
never the empty string. -/
theorem urls_absent_never_empty :
    (∀ h : String, pyStrip h = "" → _abs (some h) = none)
    ∧ (∀ (ho : Option String) (u : String), _abs ho = some u →
        pyStartsWith u "http" = true ∧ u ≠ "")
    ∧ (∀ (parseDate : String → Option Date) (divs : List FeedDiv),
        ∀ m ∈ parseDivs parseDate divs, goodMeeting m) := by
  refine ⟨?_, _abs_some_good, ?_⟩
  · intro h hs
    simp [_abs, hs]
  · intro parseDate divs m hm
    have hm2 := mem_stableSort.mp hm
    obtain ⟨kv, hkv, rfl⟩ := List.mem_map.mp hm2
    exact foldl_processDiv_good parseDate divs (by simp) kv hkv

/-- Witness for C9: a whitespace href resolves to `none`, and a relative
href resolves to a non-empty absolute URL. -/
theorem urls_absent_never_empty_witness :
    (pyStrip "   " = "" ∧ _abs (some "   ") = none)
    ∧ (_abs (some "/FileOpen.aspx?Type=14")
         = some "https://sanramonca.iqm2.com/Citizens/FileOpen.aspx?Type=14"
       ∧ pyStartsWith "https://sanramonca.iqm2.com/Citizens/FileOpen.aspx?Type=14" "http" = true
       ∧ "https://sanramonca.iqm2.com/Citizens/FileOpen.aspx?Type=14" ≠ "") :=
  ⟨⟨by decide, urls_absent_never_empty.1 "   " (by decide)⟩,
   ⟨by decide,
    urls_absent_never_empty.2.1 (some "/FileOpen.aspx?Type=14")
      "https://sanramonca.iqm2.com/Citizens/FileOpen.aspx?Type=14" (by decide)⟩⟩

/- ────────────────────────────────────────────────────────────────────────
   C3 — merge-by-date of agenda / minutes / webcast sub-entries
   ──────────────────────────────────────────────────────────────────────── -/

/-- The facet of one sub-entry, read from its heading token. -/
inductive EntryKind where
  | agenda
  | minutes
  | webcast
deriving DecidableEq

/-- Classification of a heading by the `if / elif` token tests of
`_fetch_rss`, in source order. -/
def headingKind (h : String) : Option EntryKind :=
  if strContains h "- Agenda -" then some EntryKind.agenda
  else if strContains h "- Minutes -" then some EntryKind.minutes
  else if strContains h "- Webcast -" then some EntryKind.webcast
  else none

/-- The first div of a given facet in a div list. -/
def kindDiv (divs : List FeedDiv) (k : EntryKind) : Option FeedDiv :=
  divs.find? (fun d => decide (headingKind d.heading = some k))

/-- Resolution of a detail URL: the first `Detail_Meeting` link. -/
def resolveDetail (links : List (String × String)) : Option String :=
  (links.find? (fun p => strContains p.2 "Detail_Meeting")).map (fun p => p.2)

/-- Resolution of an agenda URL: first `FileOpen`-plus-`Type=14` link,
falling back to any `FileOpen` link. -/
def resolveAgenda (links : List (String × String)) : Option String :=
  match links.find? (fun p => strContains p.2 "FileOpen" && strContains p.2 "Type=14") with
  | some p => some p.2
  | none => (links.find? (fun p => strContains p.2 "FileOpen")).map (fun p => p.2)

/-- Resolution of a minutes URL: first `FileOpen` link, falling back to a
link with "minute" in its text or `Type=16` in its URL. -/
def resolveMinutes (links : List (String × String)) : Option String :=
  match links.find? (fun p => strContains p.2 "FileOpen") with
  | some p => some p.2
  | none =>
    (links.find? (fun p =>
      strContains (pyLower p.1) "minute" || strContains p.2 "Type=16")).map (fun p => p.2)

/-- Effect of one agenda sub-entry on the `detail_url` field. -/
def detailEffect (links : List (String × String)) (o : Option String) : Option String :=
  match o with
  | some u => some u
  | none => resolveDetail links

/-- Effect of one agenda sub-entry on the `agenda_url` field. -/
def agendaEffect (links : List (String × String)) (o : Option String) : Option String :=
  match o with
  | some u => some u
  | none => resolveAgenda links

/-- Effect of one minutes sub-entry on the `minutes_url` field. -/
def minutesEffect (links : List (String × String)) (o : Option String) : Option String :=
  match links.find? (fun p => strContains p.2 "FileOpen") with
  | some p => some p.2
  | none =>
    match o with
    | some u => some u
    | none =>
      (links.find? (fun p =>
        strContains (pyLower p.1) "minute" || strContains p.2 "Type=16")).map (fun p => p.2)

/-- Effect of one webcast sub-entry on the `webcast_url` field. -/
def webcastEffect (links : List (String × String)) (o : Option String) : Option String :=
  match links.find? (fun p => strContains p.2 "Detail_Meeting") with
  | some p => some p.2
  | none => o

/-- The one record a parse pass builds for a date from its sub-entries:
each field resolved from the links of the sub-entry of the owning facet. -/
def mergedRecord (dt : Date) (divs : List FeedDiv) : Meeting :=
  { name := "City Council"
    date := displayDate dt
    iso := dt
    detail_url := match kindDiv divs EntryKind.agenda with
      | some d => resolveDetail (divLinks d.links)
      | none => none
    agenda_url := match kindDiv divs EntryKind.agenda with
      | some d => resolveAgenda (divLinks d.links)
      | none => none
    minutes_url := match kindDiv divs EntryKind.minutes with
      | some d => resolveMinutes (divLinks d.links)
      | none => none
    has_webcast := (kindDiv divs EntryKind.webcast).isSome
    webcast_url := match kindDiv divs EntryKind.webcast with
      | some d => resolveDetail (divLinks d.links)
      | none => none }

theorem applyHeading_kind (heading : String) (links : List (String × String)) (e : Meeting) :
    applyHeading heading links e = match headingKind heading with
      | some EntryKind.agenda => applyAgendaLinks links e
      | some EntryKind.minutes => applyMinutesLinks links e
      | some EntryKind.webcast => applyWebcastLinks links e
      | none => e := by
  unfold applyHeading headingKind
  by_cases h1 : strContains heading "- Agenda -" = true
  · simp [h1]
  · by_cases h2 : strContains heading "- Minutes -" = true
    · simp [h1, h2]
    · by_cases h3 : strContains heading "- Webcast -" = true
      · simp [h1, h2, h3]
      · simp [h1, h2, h3]

theorem agendaStep_detail (e : Meeting) (p : String × String) :
    (agendaStep e p).detail_url =
      if strContains p.2 "Detail_Meeting" && e.detail_url.isNone
      then some p.2 else e.detail_url := by
  by_cases h1 : (strContains p.2 "Detail_Meeting" && e.detail_url.isNone) = true <;>
    by_cases h2 : (strContains p.2 "FileOpen" && strContains p.2 "Type=14"
        && e.agenda_url.isNone) = true <;>
      simp [agendaStep, h1, h2]

theorem agendaStep_agenda (e : Meeting) (p : String × String) :
    (agendaStep e p).agenda_url =
      if strContains p.2 "FileOpen" && strContains p.2 "Type=14" && e.agenda_url.isNone
      then some p.2 else e.agenda_url := by
  by_cases h1 : (strContains p.2 "Detail_Meeting" && e.detail_url.isNone) = true <;>
    by_cases h2 : (strContains p.2 "FileOpen" && strContains p.2 "Type=14"
        && e.agenda_url.isNone) = true <;>
      simp [agendaStep, h1, h2]

theorem agendaStep_others (e : Meeting) (p : String × String) :
    (agendaStep e p).name = e.name ∧ (agendaStep e p).date = e.date
    ∧ (agendaStep e p).iso = e.iso ∧ (agendaStep e p).minutes_url = e.minutes_url
    ∧ (agendaStep e p).has_webcast = e.has_webcast
    ∧ (agendaStep e p).webcast_url = e.webcast_url := by
  by_cases h1 : (strContains p.2 "Detail_Meeting" && e.detail_url.isNone) = true <;>
    by_cases h2 : (strContains p.2 "FileOpen" && strContains p.2 "Type=14"
        && e.agenda_url.isNone) = true <;>
      simp [agendaStep, h1, h2]

theorem foldl_agendaStep_detail (ls : List (String × String)) (e : Meeting) :
    (ls.foldl agendaStep e).detail_url = detailEffect ls e.detail_url := by
  induction ls generalizing e with
  | nil =>
    cases h : e.detail_url <;> simp [detailEffect, resolveDetail, h]
  | cons p ps ih =>
    rw [List.foldl_cons, ih]
    cases h : e.detail_url with
    | some u =>
      have hstep : (agendaStep e p).detail_url = some u := by
        rw [agendaStep_detail, h]
        simp
      rw [hstep]
      simp [detailEffect]
    | none =>
      by_cases hc : strContains p.2 "Detail_Meeting" = true
      · have hstep : (agendaStep e p).detail_url = some p.2 := by
          rw [agendaStep_detail, h]
          simp [hc]
        rw [hstep]
        simp [detailEffect, resolveDetail, List.find?_cons, hc]
      · have hstep : (agendaStep e p).detail_url = none := by
          rw [agendaStep_detail, h]
          simp [hc]
        rw [hstep]
        have hcf : strContains p.2 "Detail_Meeting" = false := Bool.eq_false_iff.mpr hc
        simp [detailEffect, resolveDetail, List.find?_cons, hcf]

theorem foldl_agendaStep_agenda (ls : List (String × String)) (e : Meeting) :
    (ls.foldl agendaStep e).agenda_url =
      match e.agenda_url with
      | some u => some u
      | none => (ls.find? (fun p =>
          strContains p.2 "FileOpen" && strContains p.2 "Type=14")).map (fun p => p.2) := by
  induction ls generalizing e with
  | nil => cases h : e.agenda_url <;> simp [h]
  | cons p ps ih =>
    rw [List.foldl_cons, ih]
    cases h : e.agenda_url with
    | some u =>
      have hstep : (agendaStep e p).agenda_url = some u := by
        rw [agendaStep_agenda, h]
        simp
      rw [hstep]
    | none =>
      by_cases hc : (strContains p.2 "FileOpen" && strContains p.2 "Type=14") = true
      · have hstep : (agendaStep e p).agenda_url = some p.2 := by
          rw [agendaStep_agenda, h]
          simp [hc]
        rw [hstep]
        simp [List.find?_cons, hc]
      · have hstep : (agendaStep e p).agenda_url = none := by
          rw [agendaStep_agenda, h]
          simp only [Option.isNone_none, Bool.and_true, hc, Bool.false_eq_true, if_false]
        rw [hstep]
        have hcf : (strContains p.2 "FileOpen" && strContains p.2 "Type=14") = false :=
          Bool.eq_false_iff.mpr hc
        simp [List.find?_cons, hcf]

theorem foldl_agendaStep_others (ls : List (String × String)) (e : Meeting) :
    (ls.foldl agendaStep e).name = e.name ∧ (ls.foldl agendaStep e).date = e.date
    ∧ (ls.foldl agendaStep e).iso = e.iso
    ∧ (ls.foldl agendaStep e).minutes_url = e.minutes_url
    ∧ (ls.foldl agendaStep e).has_webcast = e.has_webcast
    ∧ (ls.foldl agendaStep e).webcast_url = e.webcast_url := by
  induction ls generalizing e with
  | nil => exact ⟨rfl, rfl, rfl, rfl, rfl, rfl⟩
  | cons p ps ih =>
    rw [List.foldl_cons]
    obtain ⟨i1, i2, i3, i4, i5, i6⟩ := ih (agendaStep e p)
    obtain ⟨s1, s2, s3, s4, s5, s6⟩ := agendaStep_others e p
    exact ⟨i1.trans s1, i2.trans s2, i3.trans s3, i4.trans s4, i5.trans s5, i6.trans s6⟩

theorem applyAgendaLinks_eq (links : List (String × String)) (e : Meeting) :
    applyAgendaLinks links e =
      { e with detail_url := detailEffect links e.detail_url,
               agenda_url := agendaEffect links e.agenda_url } := by
  simp only [applyAgendaLinks]
  obtain ⟨o1, o2, o3, o4, o5, o6⟩ := foldl_agendaStep_others links e
  have hd := foldl_agendaStep_detail links e
  have ha := foldl_agendaStep_agenda links e
  cases hea : e.agenda_url with
  | some u =>
    rw [hea] at ha
    have hnone : (links.foldl agendaStep e).agenda_url.isNone = false := by
      rw [ha]; rfl
    simp only [hnone, Bool.false_eq_true, if_false]
    exact Meeting.ext o1 o2 o3 hd ha o4 o5 o6
  | none =>
    rw [hea] at ha
    cases hf14 : links.find? (fun p =>
        strContains p.2 "FileOpen" && strContains p.2 "Type=14") with
    | some p =>
      rw [hf14] at ha
      have hnone : (links.foldl agendaStep e).agenda_url.isNone = false := by
        rw [ha]; rfl
      have ha2 : (links.foldl agendaStep e).agenda_url = agendaEffect links none := by
        rw [ha]
        simp [agendaEffect, resolveAgenda, hf14]
      simp only [hnone, Bool.false_eq_true, if_false]
      exact Meeting.ext o1 o2 o3 hd ha2 o4 o5 o6
    | none =>
      rw [hf14] at ha
      have hnone : (links.foldl agendaStep e).agenda_url.isNone = true := by
        rw [ha]; rfl
      simp only [hnone, if_true]
      cases hfo : links.find? (fun p => strContains p.2 "FileOpen") with
      | some q =>
        refine Meeting.ext o1 o2 o3 hd ?_ o4 o5 o6
        simp [agendaEffect, resolveAgenda, hf14, hfo]
      | none =>
        refine Meeting.ext o1 o2 o3 hd ?_ o4 o5 o6
        rw [ha]
        simp [agendaEffect, resolveAgenda, hf14, hfo]

theorem applyMinutesLinks_eq (links : List (String × String)) (e : Meeting) :
    applyMinutesLinks links e = { e with minutes_url := minutesEffect links e.minutes_url } := by
  unfold applyMinutesLinks minutesEffect
  cases hf : links.find? (fun p => strContains p.2 "FileOpen") with
  | some p => simp [hf]
  | none =>
    simp only [hf]
    cases hm : e.minutes_url with
    | some u =>
      simp only [hm, Option.isNone_some, Bool.false_eq_true, if_false]
      refine Meeting.ext rfl rfl rfl rfl rfl ?_ rfl rfl
      rw [hm]
    | none =>
      cases hf2 : links.find? (fun p =>
          strContains (pyLower p.1) "minute" || strContains p.2 "Type=16") with
      | some q => simp [hm, hf2]
      | none =>
        simp only [hm, hf2, Option.isNone_none, if_true]
        refine Meeting.ext rfl rfl rfl rfl rfl ?_ rfl rfl
        rw [hm]
        rfl

theorem applyWebcastLinks_eq (links : List (String × String)) (e : Meeting) :
    applyWebcastLinks links e =
      { e with has_webcast := true, webcast_url := webcastEffect links e.webcast_url } := by
  unfold applyWebcastLinks webcastEffect
  cases hf : links.find? (fun p => strContains p.2 "Detail_Meeting") <;> simp [hf]

theorem kindDiv_cons (d : FeedDiv) (divs : List FeedDiv) (k : EntryKind) :
    kindDiv (d :: divs) k =
      if headingKind d.heading = some k then some d else kindDiv divs k := by
  unfold kindDiv
  rw [List.find?_cons]
  by_cases h : headingKind d.heading = some k <;> simp [h]

theorem kindDiv_none_of_not_mem {divs : List FeedDiv} {k : EntryKind}
    (h : some k ∉ divs.map (fun d => headingKind d.heading)) : kindDiv divs k = none := by
  unfold kindDiv
  rw [List.find?_eq_none]
  intro d hd
  simp only [decide_eq_true_eq]
  intro hk
  exact h (hk ▸ List.mem_map_of_mem (fun d => headingKind d.heading) hd)

theorem foldl_applyDiv_fields (divs : List FeedDiv)
    (hnodup : (divs.map (fun d => headingKind d.heading)).Nodup)
    (hsome : ∀ d ∈ divs, (headingKind d.heading).isSome = true) :
    ∀ e : Meeting,
      (divs.foldl (fun e d => applyHeading d.heading (divLinks d.links) e) e).name = e.name
      ∧ (divs.foldl (fun e d => applyHeading d.heading (divLinks d.links) e) e).date = e.date
      ∧ (divs.foldl (fun e d => applyHeading d.heading (divLinks d.links) e) e).iso = e.iso
      ∧ (divs.foldl (fun e d => applyHeading d.heading (divLinks d.links) e) e).detail_url
          = (match kindDiv divs EntryKind.agenda with
             | some d => detailEffect (divLinks d.links) e.detail_url
             | none => e.detail_url)
      ∧ (divs.foldl (fun e d => applyHeading d.heading (divLinks d.links) e) e).agenda_url
          = (match kindDiv divs EntryKind.agenda with
             | some d => agendaEffect (divLinks d.links) e.agenda_url
             | none => e.agenda_url)
      ∧ (divs.foldl (fun e d => applyHeading d.heading (divLinks d.links) e) e).minutes_url
          = (match kindDiv divs EntryKind.minutes with
             | some d => minutesEffect (divLinks d.links) e.minutes_url
             | none => e.minutes_url)
      ∧ (divs.foldl (fun e d => applyHeading d.heading (divLinks d.links) e) e).has_webcast
          = ((kindDiv divs EntryKind.webcast).isSome || e.has_webcast)
      ∧ (divs.foldl (fun e d => applyHeading d.heading (divLinks d.links) e) e).webcast_url
          = (match kindDiv divs EntryKind.webcast with
             | some d => webcastEffect (divLinks d.links) e.webcast_url
             | none => e.webcast_url) := by
  induction divs with
  | nil =>
    intro e
    refine ⟨rfl, rfl, rfl, rfl, rfl, rfl, by simp [kindDiv], rfl⟩
  | cons d ds ih =>
    have hkd := hsome d (by simp)
    obtain ⟨k, hk⟩ := Option.isSome_iff_exists.mp hkd
    rw [List.map_cons, List.nodup_cons] at hnodup
    obtain ⟨hnotin, hnodup2⟩ := hnodup
    rw [hk] at hnotin
    have ihds := ih hnodup2 (fun x hx => hsome x (by simp [hx]))
    intro e
    rw [List.foldl_cons]
    have happ : applyHeading d.heading (divLinks d.links) e
        = (match headingKind d.heading with
           | some EntryKind.agenda => applyAgendaLinks (divLinks d.links) e
           | some EntryKind.minutes => applyMinutesLinks (divLinks d.links) e
           | some EntryKind.webcast => applyWebcastLinks (divLinks d.links) e
           | none => e) := applyHeading_kind d.heading (divLinks d.links) e
    cases k with
    | agenda =>
      have hKa : kindDiv (d :: ds) EntryKind.agenda = some d := by
        rw [kindDiv_cons, if_pos hk]
      have hKa2 : kindDiv ds EntryKind.agenda = none := kindDiv_none_of_not_mem hnotin
      have hKm : kindDiv (d :: ds) EntryKind.minutes = kindDiv ds EntryKind.minutes := by
        rw [kindDiv_cons, if_neg (by rw [hk]; simp)]
      have hKw : kindDiv (d :: ds) EntryKind.webcast = kindDiv ds EntryKind.webcast := by
        rw [kindDiv_cons, if_neg (by rw [hk]; simp)]
      rw [happ, hk]
      simp only []
      rw [applyAgendaLinks_eq]
      obtain ⟨n1, n2, n3, n4, n5, n6, n7, n8⟩ :=
        ihds { e with detail_url := detailEffect (divLinks d.links) e.detail_url,
                      agenda_url := agendaEffect (divLinks d.links) e.agenda_url }
      refine ⟨n1, n2, n3, ?_, ?_, ?_, ?_, ?_⟩
      · rw [n4, hKa2, hKa]
      · rw [n5, hKa2, hKa]
      · rw [n6, hKm]
      · rw [n7, hKw]
      · rw [n8, hKw]
    | minutes =>
      have hKm : kindDiv (d :: ds) EntryKind.minutes = some d := by
        rw [kindDiv_cons, if_pos hk]
      have hKm2 : kindDiv ds EntryKind.minutes = none := kindDiv_none_of_not_mem hnotin
      have hKa : kindDiv (d :: ds) EntryKind.agenda = kindDiv ds EntryKind.agenda := by
        rw [kindDiv_cons, if_neg (by rw [hk]; simp)]
      have hKw : kindDiv (d :: ds) EntryKind.webcast = kindDiv ds EntryKind.webcast := by
        rw [kindDiv_cons, if_neg (by rw [hk]; simp)]
      rw [happ, hk]
      simp only []
      rw [applyMinutesLinks_eq]
      obtain ⟨n1, n2, n3, n4, n5, n6, n7, n8⟩ :=
        ihds { e with minutes_url := minutesEffect (divLinks d.links) e.minutes_url }
      refine ⟨n1, n2, n3, ?_, ?_, ?_, ?_, ?_⟩
      · rw [n4, hKa]
      · rw [n5, hKa]
      · rw [n6, hKm2, hKm]
      · rw [n7, hKw]
      · rw [n8, hKw]
    | webcast =>
      have hKw : kindDiv (d :: ds) EntryKind.webcast = some d := by
        rw [kindDiv_cons, if_pos hk]
      have hKw2 : kindDiv ds EntryKind.webcast = none := kindDiv_none_of_not_mem hnotin
      have hKa : kindDiv (d :: ds) EntryKind.agenda = kindDiv ds EntryKind.agenda := by
        rw [kindDiv_cons, if_neg (by rw [hk]; simp)]
      have hKm : kindDiv (d :: ds) EntryKind.minutes = kindDiv ds EntryKind.minutes := by
        rw [kindDiv_cons, if_neg (by rw [hk]; simp)]
      rw [happ, hk]
      simp only []
      rw [applyWebcastLinks_eq]
      obtain ⟨n1, n2, n3, n4, n5, n6, n7, n8⟩ :=
        ihds { e with has_webcast := true,
                      webcast_url := webcastEffect (divLinks d.links) e.webcast_url }
      refine ⟨n1, n2, n3, ?_, ?_, ?_, ?_, ?_⟩
      · rw [n4, hKa]
      · rw [n5, hKa]
      · rw [n6, hKm]
      · rw [n7, hKw2, hKw]
        simp
      · rw [n8, hKw2, hKw]

theorem detailEffect_none (links : List (String × String)) :
    detailEffect links none = resolveDetail links := rfl

theorem agendaEffect_none (links : List (String × String)) :
    agendaEffect links none = resolveAgenda links := rfl

theorem minutesEffect_none (links : List (String × String)) :
    minutesEffect links none = resolveMinutes links := by
  unfold minutesEffect resolveMinutes
  cases links.find? (fun p => strContains p.2 "FileOpen") <;> rfl

theorem webcastEffect_none (links : List (String × String)) :
    webcastEffect links none = resolveDetail links := by
  unfold webcastEffect resolveDetail
  cases links.find? (fun p => strContains p.2 "Detail_Meeting") <;> rfl

theorem processDiv_matching (parseDate : String → Option Date)
    (byDate : List (Date × Meeting)) (div : FeedDiv) (dt : Date)
    (hcc : strContains div.heading "City Council" = true)
    (hx : strContains div.heading "Cancelled" = false)
    (hdt : parseDate div.heading = some dt) :
    processDiv parseDate byDate div =
      updateDate (if (lookupDate byDate dt).isSome then byDate
                  else byDate ++ [(dt, freshMeeting dt)]) dt
        (applyHeading div.heading (divLinks div.links)) := by
  unfold processDiv
  simp [hcc, hx, hdt]

theorem foldl_single_date (parseDate : String → Option Date) (divs : List FeedDiv) (dt : Date)
    (hall : ∀ d ∈ divs, strContains d.heading "City Council" = true
      ∧ strContains d.heading "Cancelled" = false ∧ parseDate d.heading = some dt) :
    ∀ e : Meeting, divs.foldl (processDiv parseDate) [(dt, e)]
      = [(dt, divs.foldl (fun e d => applyHeading d.heading (divLinks d.links) e) e)] := by
  induction divs with
  | nil => intro e; rfl
  | cons d ds ih =>
    intro e
    obtain ⟨h1, h2, h3⟩ := hall d (by simp)
    rw [List.foldl_cons, processDiv_matching parseDate [(dt, e)] d dt h1 h2 h3]
    have hlook : (lookupDate [(dt, e)] dt).isSome = true := by simp [lookupDate]
    rw [if_pos hlook]
    have hupd : updateDate [(dt, e)] dt (applyHeading d.heading (divLinks d.links))
        = [(dt, applyHeading d.heading (divLinks d.links) e)] := by
      simp [updateDate]
    rw [hupd, ih (fun x hx2 => hall x (by simp [hx2])), List.foldl_cons]

theorem parseDivs_single_date (parseDate : String → Option Date) (divs : List FeedDiv)
    (dt : Date) (hne : divs ≠ [])
    (hmatch : ∀ d ∈ divs, strContains d.heading "City Council" = true
      ∧ strContains d.heading "Cancelled" = false ∧ parseDate d.heading = some dt)
    (hsome : ∀ d ∈ divs, (headingKind d.heading).isSome = true)
    (hnodup : (divs.map (fun d => headingKind d.heading)).Nodup) :
    parseDivs parseDate divs = [mergedRecord dt divs] := by
  cases divs with
  | nil => exact absurd rfl hne
  | cons d ds =>
    obtain ⟨h1, h2, h3⟩ := hmatch d (by simp)
    unfold parseDivs
    rw [List.foldl_cons, processDiv_matching parseDate [] d dt h1 h2 h3]
    rw [if_neg (by simp [lookupDate])]
    simp only [List.nil_append]
    have hupd : updateDate [(dt, freshMeeting dt)] dt
          (applyHeading d.heading (divLinks d.links))
        = [(dt, applyHeading d.heading (divLinks d.links) (freshMeeting dt))] := by
      simp [updateDate]
    rw [hupd, foldl_single_date parseDate ds dt (fun x hx2 => hmatch x (by simp [hx2]))]
    show [ds.foldl (fun e d => applyHeading d.heading (divLinks d.links) e)
            (applyHeading d.heading (divLinks d.links) (freshMeeting dt))]
        = [mergedRecord dt (d :: ds)]
    obtain ⟨n1, n2, n3, n4, n5, n6, n7, n8⟩ :=
      foldl_applyDiv_fields (d :: ds) hnodup hsome (freshMeeting dt)
    rw [List.foldl_cons] at n1 n2 n3 n4 n5 n6 n7 n8
    refine congrArg (fun m => [m]) (Meeting.ext n1 n2 n3 ?_ ?_ ?_ ?_ ?_)
    · rw [n4]
      cases hK : kindDiv (d :: ds) EntryKind.agenda with
      | none => simp [mergedRecord, hK, freshMeeting]
      | some d2 => simp [mergedRecord, hK, freshMeeting, detailEffect_none]
    · rw [n5]
      cases hK : kindDiv (d :: ds) EntryKind.agenda with
      | none => simp [mergedRecord, hK, freshMeeting]
      | some d2 => simp [mergedRecord, hK, freshMeeting, agendaEffect_none]
    · rw [n6]
      cases hK : kindDiv (d :: ds) EntryKind.minutes with
      | none => simp [mergedRecord, hK, freshMeeting]
      | some d2 => simp [mergedRecord, hK, freshMeeting, minutesEffect_none]
    · rw [n7]
      simp [mergedRecord, freshMeeting]
    · rw [n8]
      cases hK : kindDiv (d :: ds) EntryKind.webcast with
      | none => simp [mergedRecord, hK, freshMeeting]
      | some d2 => simp [mergedRecord, hK, freshMeeting, webcastEffect_none]

theorem find?_eq_of_perm_unique {α : Type} {l l2 : List α} (hp : List.Perm l l2)
    (p : α → Bool) (uniq : ∀ x ∈ l, ∀ y ∈ l, p x = true → p y = true → x = y) :
    l.find? p = l2.find? p := by
  cases hf : l.find? p with
  | none =>
    have h1 := List.find?_eq_none.mp hf
    exact (List.find?_eq_none.mpr (fun x hx => h1 x (hp.mem_iff.mpr hx))).symm
  | some a =>
    have hpa := List.find?_some hf
    have hma := List.mem_of_find?_eq_some hf
    cases hf2 : l2.find? p with
    | none =>
      exact absurd hpa (List.find?_eq_none.mp hf2 a (hp.mem_iff.mp hma))
    | some b =>
      have hpb := List.find?_some hf2
      have hmb := hp.mem_iff.mpr (List.mem_of_find?_eq_some hf2)
      rw [uniq a hma b hmb hpa hpb]

theorem kindDiv_eq_of_perm {divs divs2 : List FeedDiv} (hp : List.Perm divs divs2)
    (hnodup : (divs.map (fun d => headingKind d.heading)).Nodup) (k : EntryKind) :
    kindDiv divs k = kindDiv divs2 k := by
  apply find?_eq_of_perm_unique hp
  intro x hx y hy hpx hpy
  simp only [decide_eq_true_eq] at hpx hpy
  exact List.inj_on_of_nodup_map hnodup hx hy (hpx.trans hpy.symm)

theorem mergedRecord_eq_of_perm {divs divs2 : List FeedDiv} (hp : List.Perm divs divs2)
    (hnodup : (divs.map (fun d => headingKind d.heading)).Nodup) (dt : Date) :
    mergedRecord dt divs = mergedRecord dt divs2 := by
  unfold mergedRecord
  rw [kindDiv_eq_of_perm hp hnodup EntryKind.agenda,
    kindDiv_eq_of_perm hp hnodup EntryKind.minutes,
    kindDiv_eq_of_perm hp hnodup EntryKind.webcast]

/-- C3: a parse pass over sub-entries (one per facet, in any order) that
share one calendar date produces exactly one record, with every field
resolved from the links of the owning facet (the `mergedRecord` shape);
the result is unchanged under any permutation of the sub-entries; and
`has_webcast` is true exactly when a webcast sub-entry exists, whether or
not its own links yield a URL. -/
theorem merge_by_date_single_record (parseDate : String → Option Date)
    (divs : List FeedDiv) (dt : Date) (hne : divs ≠ [])
    (hmatch : ∀ d ∈ divs, strContains d.heading "City Council" = true
      ∧ strContains d.heading "Cancelled" = false ∧ parseDate d.heading = some dt)
    (hsome : ∀ d ∈ divs, (headingKind d.heading).isSome = true)
    (hnodup : (divs.map (fun d => headingKind d.heading)).Nodup) :
    parseDivs parseDate divs = [mergedRecord dt divs]
    ∧ (∀ divs2, List.Perm divs divs2 → parseDivs parseDate divs2 = [mergedRecord dt divs])
    ∧ ((mergedRecord dt divs).has_webcast = true
        ↔ ∃ d ∈ divs, headingKind d.heading = some EntryKind.webcast)
    ∧ (mergedRecord dt divs).iso = dt := by
  refine ⟨parseDivs_single_date parseDate divs dt hne hmatch hsome hnodup, ?_, ?_, rfl⟩
  · intro divs2 hp
    have hne2 : divs2 ≠ [] := by
      intro h
      subst h
      exact hne hp.eq_nil
    have hmatch2 : ∀ d ∈ divs2, strContains d.heading "City Council" = true
        ∧ strContains d.heading "Cancelled" = false ∧ parseDate d.heading = some dt :=
      fun d hd => hmatch d (hp.mem_iff.mpr hd)
    have hsome2 : ∀ d ∈ divs2, (headingKind d.heading).isSome = true :=
      fun d hd => hsome d (hp.mem_iff.mpr hd)
    have hnodup2 : (divs2.map (fun d => headingKind d.heading)).Nodup :=
      ((hp.map (fun d => headingKind d.heading)).nodup_iff).mp hnodup
    rw [parseDivs_single_date parseDate divs2 dt hne2 hmatch2 hsome2 hnodup2,
      ← mergedRecord_eq_of_perm hp hnodup dt]
  · show (kindDiv divs EntryKind.webcast).isSome = true ↔ _
    unfold kindDiv
    rw [List.find?_isSome]
    constructor
    · rintro ⟨d, hd, hpd⟩
      exact ⟨d, hd, of_decide_eq_true hpd⟩
    · rintro ⟨d, hd, hpd⟩
      exact ⟨d, hd, decide_eq_true hpd⟩

/-- Heading of a sample minutes entry. -/
def sampleHeadingM : String := "City Council - Minutes - Jun 15, 2025"

/-- Heading of a sample webcast entry. -/
def sampleHeadingW : String := "City Council - Webcast - Jun 15, 2025"

/-- A sample minutes div block. -/
def sampleDivM : FeedDiv := ⟨sampleHeadingM, [⟨"Minutes", "/FileOpen.aspx?Type=12&ID=2"⟩]⟩

/-- A sample webcast div block whose only link target is whitespace, so no
webcast URL can be resolved. -/
def sampleDivW : FeedDiv := ⟨sampleHeadingW, [⟨"video", "   "⟩]⟩

/-- Sub-entries of the three facets, deliberately out of calendar order. -/
def sampleDivs : List FeedDiv := [sampleDivW, sampleDivA, sampleDivM]

/-- A heading-date extractor recognising all three sample headings. -/
def samplePd3 : String → Option Date := fun h =>
  if h = sampleHeadingA ∨ h = sampleHeadingM ∨ h = sampleHeadingW
  then some ⟨2025, 6, 15⟩ else none

/-- Witness for C3 on the three sample sub-entries. -/
theorem merge_by_date_single_record_witness :
    (sampleDivs ≠ [] ∧ (sampleDivs.map (fun d => headingKind d.heading)).Nodup)
    ∧ parseDivs samplePd3 sampleDivs = [mergedRecord ⟨2025, 6, 15⟩ sampleDivs]
    ∧ (mergedRecord ⟨2025, 6, 15⟩ sampleDivs).has_webcast = true
    ∧ (mergedRecord ⟨2025, 6, 15⟩ sampleDivs).webcast_url = none :=
  ⟨⟨by decide, by decide⟩,
   (merge_by_date_single_record samplePd3 sampleDivs ⟨2025, 6, 15⟩ (by decide)
      (by decide) (by decide) (by decide)).1,
   by decide, by decide⟩

/- ────────────────────────────────────────────────────────────────────────
   engine.py — LLM Summarization Engine
   ──────────────────────────────────────────────────────────────────────── -/

/-- Constant `SUPPORTED_BACKENDS` of `engine.py`. -/
def SUPPORTED_BACKENDS : List String := ["groq_llama", "gemini", "trinity", "deepseek_r1"]

/-- Function `_call_llm` of `engine.py`: run the provider thunk, and turn
any raised exception into a classified in-band message by substring tests
on the lowercased text, in source order.  The thunk outcome is modelled as
`Except`: `ok` the returned text, `error` the text of the raised
exception. -/
def _call_llm (client_fn : Except String String) (label : String) : String :=
  match client_fn with
  | .ok text => text
  | .error e =>
    let msg := pyLower e
    if strContains msg "rate_limit" || strContains msg "429" then
      "**Rate Limit:** " ++ label ++ " is busy. Wait 60 s and retry."
    else if strContains msg "insufficient_quota" || strContains msg "billing" then
      "**Quota Error:** " ++ label ++ " has insufficient credits."
    else if strContains msg "decommissioned" || strContains msg "model_decommissioned" then
      "**Model Error:** " ++ label ++ " model is decommissioned."
    else if strContains msg "invalid_api_key" || strContains msg "authentication" then
      "**Auth Error:** Invalid " ++ label ++ " API key."
    else
      "**" ++ label ++ " Error:** " ++ e

/-- The `agenda_note` local of `build_prompt`. -/
def agendaNote (meeting : Meeting) : String :=
  match meeting.agenda_url with
  | some u => if u = "" then "" else "Official agenda: " ++ u ++ "\n"
  | none => ""

/-- The `minutes_note` local of `build_prompt`. -/
def minutesNote (meeting : Meeting) : String :=
  match meeting.minutes_url with
  | some u => if u = "" then "" else "Official minutes: " ++ u ++ "\n"
  | none => ""

/-- Function `build_prompt` of `engine.py`, one string literal per
f-string line of the source. -/
def build_prompt (meeting : Meeting) (text_snippet : String) : String :=
  "You are a senior municipal reporter covering a San Ramon City Council meeting on "
  ++ meeting.date ++ ".\n"
  ++ agendaNote meeting ++ minutesNote meeting ++ "\n"
  ++ "Produce a structured civic intelligence report with EXACTLY these sections:\n\n"
  ++ "## Executive Summary\n2-3 sentences on the meeting\x27s most significant outcomes.\n\n"
  ++ "## Key Votes & Decisions\nBullet list of every formal vote. Include vote counts if mentioned.\n\n"
  ++ "## Fiscal Impact\nSpending, contracts, or budget commitments. Write \x27None discussed\x27 if absent.\n\n"
  ++ "## Public Commentary\nNotable themes from public comment. Who spoke and on what topics.\n\n"
  ++ "## Next Steps & Deadlines\nFollow-up actions or future agenda items mentioned.\n\n"
  ++ "RULES: Start immediately with ## Executive Summary. Facts only. No preamble.\n\n"
  ++ "TRANSCRIPT:\n" ++ text_snippet

/-- Function `prepare_transcript` of `engine.py`: join segment texts with
single spaces and cut to the backend character budget. -/
def prepare_transcript {τ : Type} (transcript : List (CaptionEntry τ)) (max_chars : Nat) :
    String :=
  let full := pyJoin " " (transcript.map (fun t => t.text))
  if max_chars < full.data.length then pyTake full max_chars else full

/-- The `CONTEXT_LIMITS` dict of `CouncilEngine`; `none` models the
`KeyError` a lookup with an unknown key would raise. -/
def CONTEXT_LIMITS : String → Option Nat
  | "gemini" => some 120000
  | "groq_llama" => some 18000
  | "trinity" => some 40000
  | "deepseek_r1" => some 64000
  | _ => none

/-- The provider label each backend passes to `_call_llm` in its
`_summarize_*` method; `none` models the `KeyError` of the dispatch dict
in `generate_summary` for an unknown backend. -/
def backendLabel : String → Option String
  | "groq_llama" => some "Groq"
  | "gemini" => some "Gemini"
  | "trinity" => some "OpenRouter"
  | "deepseek_r1" => some "OpenRouter"
  | _ => none

/-- Method `CouncilEngine.generate_summary`: truncate the transcript to
the backend budget, build the prompt, dispatch to the backend summarizer,
which wraps its provider call in `_call_llm`.  The provider (the network
call to the LLM) is an argument mapping the prompt to the call outcome.
Both dict lookups are keyed by the validated backend, so the `none`
branch is unreachable for an engine that passed construction. -/
def generate_summary {τ : Type} (backend : String) (meeting : Meeting)
    (transcript : List (CaptionEntry τ)) (provider : String → Except String String) :
    Option String :=
  match CONTEXT_LIMITS backend, backendLabel backend with
  | some limit, some label =>
    some (_call_llm (provider (build_prompt meeting (prepare_transcript transcript limit)))
      label)
  | _, _ => none

/-- The Python truthiness of `backend or default` in
`CouncilEngine.__init__`: `None` and the empty string fall through. -/
def pyOrStr (a : Option String) (b : String) : String :=
  match a with
  | some s => if s = "" then b else s
  | none => b

/-- The engine state the claims need: the validated backend name. -/
structure CouncilEngine where
  backend : String
deriving DecidableEq

/-- The Python repr of the `SUPPORTED_BACKENDS` tuple interpolated into
the `ValueError` message. -/
def SUPPORTED_BACKENDS_REPR : String :=
  "(\x27groq_llama\x27, \x27gemini\x27, \x27trinity\x27, \x27deepseek_r1\x27)"

/-- The credential check shared by the `_init_*` methods: read the key via
`_get_secret` (environment plus secrets fallback, modelled as one map) and
raise when it is missing or falsy. -/
def requireKey (secret : String → Option String) (keyName : String) (backend : String) :
    Except String CouncilEngine :=
  match secret keyName with
  | some k => if k = "" then Except.error (keyName ++ " not set")
              else Except.ok { backend := backend }
  | none => Except.error (keyName ++ " not set")

/-- Method `CouncilEngine.__init__`: resolve the backend argument against
the `SUMMARIZER_BACKEND` environment default, lowercase it, raise
`ValueError` naming the supported backends when it is unknown, and only
then dispatch to the per-backend initialiser that looks up credentials.
The final catch-all models the dict `KeyError`, dead under the membership
guard. -/
def council_engine_init (backendArg : Option String) (envBackend : Option String)
    (secret : String → Option String) : Except String CouncilEngine :=
  let backend := pyLower (pyOrStr backendArg (envBackend.getD "gemini"))
  if backend ∈ SUPPORTED_BACKENDS then
    match backend with
    | "groq_llama" => requireKey secret "GROQ_API_KEY" backend
    | "gemini" => requireKey secret "GEMINI_API_KEY" backend
    | "trinity" => requireKey secret "OPENROUTER_API_KEY" backend
    | "deepseek_r1" => requireKey secret "OPENROUTER_API_KEY" backend
    | _ => Except.error "KeyError"
  else
    Except.error ("Invalid backend \x27" ++ backend ++ "\x27. Choose from: "
      ++ SUPPORTED_BACKENDS_REPR)

/- ────────────────────────────────────────────────────────────────────────
   C7 — central classification of backend failures
   ──────────────────────────────────────────────────────────────────────── -/

/-- Counterexample for C7 as stated: a message containing both "429" and
"invalid_api_key" is classified as a rate limit, not an auth error — the
rate-limit test runs first, so "contains invalid_api_key implies auth
error" fails on overlapping messages. -/
theorem error_classification_counterexample :
    _call_llm (Except.error "429 invalid_api_key") "Groq"
      = "**Rate Limit:** " ++ "Groq" ++ " is busy. Wait 60 s and retry."
    ∧ ¬ _call_llm (Except.error "429 invalid_api_key") "Groq"
      = "**Auth Error:** Invalid " ++ "Groq" ++ " API key." := by
  exact ⟨by decide, by decide⟩

/-- C7 (amended): classification is by substring matching on the
lowercased message with the source precedence — rate-limit markers first,
then quota, then decommission, then auth — an unmatched message falls to
the generic branch preserving the original text, and every backend routes
its provider call through the single `_call_llm` classifier. -/
theorem error_classification_central :
    (∀ e label, strContains (pyLower e) "429" = true →
        _call_llm (Except.error e) label
          = "**Rate Limit:** " ++ label ++ " is busy. Wait 60 s and retry.")
    ∧ (∀ e label,
        strContains (pyLower e) "rate_limit" = false →
        strContains (pyLower e) "429" = false →
        strContains (pyLower e) "insufficient_quota" = false →
        strContains (pyLower e) "billing" = false →
        strContains (pyLower e) "decommissioned" = false →
        strContains (pyLower e) "model_decommissioned" = false →
        strContains (pyLower e) "invalid_api_key" = true →
          _call_llm (Except.error e) label
            = "**Auth Error:** Invalid " ++ label ++ " API key.")
    ∧ (∀ e label,
        strContains (pyLower e) "rate_limit" = false →
        strContains (pyLower e) "429" = false →
        strContains (pyLower e) "insufficient_quota" = false →
        strContains (pyLower e) "billing" = false →
        strContains (pyLower e) "decommissioned" = false →
        strContains (pyLower e) "model_decommissioned" = false →
        strContains (pyLower e) "invalid_api_key" = false →
        strContains (pyLower e) "authentication" = false →
          _call_llm (Except.error e) label = "**" ++ label ++ " Error:** " ++ e)
    ∧ (∀ (τ : Type) (backend : String) (meeting : Meeting)
        (transcript : List (CaptionEntry τ)) (provider : String → Except String String),
        backend ∈ SUPPORTED_BACKENDS →
        ∃ prompt label, generate_summary backend meeting transcript provider
          = some (_call_llm (provider prompt) label)) := by
  refine ⟨?_, ?_, ?_, ?_⟩
  · intro e label h
    simp [_call_llm, h]
  · intro e label h1 h2 h3 h4 h5 h6 h7
    simp [_call_llm, h1, h2, h3, h4, h5, h6, h7]
  · intro e label h1 h2 h3 h4 h5 h6 h7 h8
    simp [_call_llm, h1, h2, h3, h4, h5, h6, h7, h8]
  · intro τ backend meeting transcript provider hmem
    have : backend = "groq_llama" ∨ backend = "gemini" ∨ backend = "trinity"
        ∨ backend = "deepseek_r1" := by simpa [SUPPORTED_BACKENDS] using hmem
    rcases this with rfl | rfl | rfl | rfl
    · exact ⟨build_prompt meeting (prepare_transcript transcript 18000), "Groq", rfl⟩
    · exact ⟨build_prompt meeting (prepare_transcript transcript 120000), "Gemini", rfl⟩
    · exact ⟨build_prompt meeting (prepare_transcript transcript 40000), "OpenRouter", rfl⟩
    · exact ⟨build_prompt meeting (prepare_transcript transcript 64000), "OpenRouter", rfl⟩

/-- Witness for C7 (amended) on concrete messages. -/
theorem error_classification_central_witness :
    (strContains (pyLower "HTTP Error 429") "429" = true
      ∧ _call_llm (Except.error "HTTP Error 429") "Groq"
          = "**Rate Limit:** " ++ "Groq" ++ " is busy. Wait 60 s and retry.")
    ∧ (strContains (pyLower "socket timeout") "rate_limit" = false
      ∧ _call_llm (Except.error "socket timeout") "Gemini"
          = "**" ++ "Gemini" ++ " Error:** " ++ "socket timeout") :=
  ⟨⟨by decide, error_classification_central.1 "HTTP Error 429" "Groq" (by decide)⟩,
   ⟨by decide,
    error_classification_central.2.2.1 "socket timeout" "Gemini" (by decide) (by decide)
      (by decide) (by decide) (by decide) (by decide) (by decide) (by decide)⟩⟩

/- ────────────────────────────────────────────────────────────────────────
   C6 — failures are in-band string values, not a separate status field
   ──────────────────────────────────────────────────────────────────────── -/

/-- Counterexample for C6 as stated: a successful report whose body happens
to equal the rate-limit message is indistinguishable from a classified
rate-limit failure — `generate_summary` returns the same plain string for
both, so no separate status field exists. -/
theorem success_failure_indistinguishable :
    generate_summary (τ := Unit) "gemini" (freshMeeting ⟨2025, 6, 15⟩) []
        (fun _ => Except.ok ("**Rate Limit:** " ++ "Gemini" ++ " is busy. Wait 60 s and retry."))
      = generate_summary (τ := Unit) "gemini" (freshMeeting ⟨2025, 6, 15⟩) []
        (fun _ => Except.error "HTTP 429 Too Many Requests") := by
  decide

/-- C6 (amended): every call on a supported backend returns a value (all
provider exceptions are absorbed, none propagates), and every classified
failure is an in-band string marked with a leading `**` in the body —
success is distinguishable from failure only by inspecting the text. -/
theorem failures_are_marked_values :
    (∀ (τ : Type) (backend : String) (meeting : Meeting)
        (transcript : List (CaptionEntry τ)) (provider : String → Except String String),
        backend ∈ SUPPORTED_BACKENDS →
        (generate_summary backend meeting transcript provider).isSome = true)
    ∧ (∀ e label, pyStartsWith (_call_llm (Except.error e) label) "**" = true) := by
  constructor
  · intro τ backend meeting transcript provider hmem
    have : backend = "groq_llama" ∨ backend = "gemini" ∨ backend = "trinity"
        ∨ backend = "deepseek_r1" := by simpa [SUPPORTED_BACKENDS] using hmem
    rcases this with rfl | rfl | rfl | rfl <;> rfl
  · intro e label
    simp only [_call_llm]
    split
    · exact pyStartsWith_append "**Rate Limit:** " _ "**" (by decide)
    · split
      · exact pyStartsWith_append "**Quota Error:** " _ "**" (by decide)
      · split
        · exact pyStartsWith_append "**Model Error:** " _ "**" (by decide)
        · split
          · exact pyStartsWith_append "**Auth Error:** Invalid " _ "**" (by decide)
          · exact pyStartsWith_append "**" _ "**" (by decide)

/-- Witness for C6 (amended) at a concrete backend and failing provider. -/
theorem failures_are_marked_values_witness :
    ("gemini" ∈ SUPPORTED_BACKENDS
      ∧ (generate_summary (τ := Unit) "gemini" (freshMeeting ⟨2025, 6, 15⟩) []
          (fun _ => Except.error "boom")).isSome = true)
    ∧ pyStartsWith (_call_llm (Except.error "boom") "Gemini") "**" = true :=
  ⟨⟨by decide,
    failures_are_marked_values.1 Unit "gemini" (freshMeeting ⟨2025, 6, 15⟩) []
      (fun _ => Except.error "boom") (by decide)⟩,
   failures_are_marked_values.2 "boom" "Gemini"⟩

/- ────────────────────────────────────────────────────────────────────────
   C8 — report format: prompt instructs it, result is not validated
   ──────────────────────────────────────────────────────────────────────── -/

/-- Counterexample for C8 as stated: a successful call returns exactly
what the backend produced, with no format validation — a backend answering
"hello" yields a report body that does not start with the required
header. -/
theorem report_format_unvalidated :
    generate_summary (τ := Unit) "gemini" (freshMeeting ⟨2025, 6, 15⟩) []
        (fun _ => Except.ok "hello") = some "hello"
    ∧ pyStartsWith "hello" "## Executive Summary" = false := by
  exact ⟨by decide, by decide⟩

/-- C8 (amended): the prompt built for every call lists exactly the five
required section headers in the required order and instructs the model to
start immediately with the Executive Summary; the body of a successful
call is the backend text passed through unvalidated. -/
theorem prompt_five_sections (meeting : Meeting) (snippet : String) :
    (∃ p0 b1 b2 b3 b4 b5,
        build_prompt meeting snippet
          = p0 ++ "## Executive Summary\n" ++ b1 ++ "## Key Votes & Decisions\n" ++ b2
            ++ "## Fiscal Impact\n" ++ b3 ++ "## Public Commentary\n" ++ b4
            ++ "## Next Steps & Deadlines\n" ++ b5
        ∧ (∃ c1 c2, b5 = c1
            ++ "RULES: Start immediately with ## Executive Summary. Facts only. No preamble.\n\n"
            ++ c2))
    ∧ (∀ (τ : Type) (transcript : List (CaptionEntry τ))
        (provider : String → Except String String) (body : String),
        (∀ prompt, provider prompt = Except.ok body) →
        ∀ backend ∈ SUPPORTED_BACKENDS,
          generate_summary backend meeting transcript provider = some body) := by
  constructor
  · have e1 : ("## Executive Summary\n2-3 sentences on the meeting\x27s most significant outcomes.\n\n" : String)
        = "## Executive Summary\n" ++ "2-3 sentences on the meeting\x27s most significant outcomes.\n\n" := by
      decide
    have e2 : ("## Key Votes & Decisions\nBullet list of every formal vote. Include vote counts if mentioned.\n\n" : String)
        = "## Key Votes & Decisions\n" ++ "Bullet list of every formal vote. Include vote counts if mentioned.\n\n" := by
      decide
    have e3 : ("## Fiscal Impact\nSpending, contracts, or budget commitments. Write \x27None discussed\x27 if absent.\n\n" : String)
        = "## Fiscal Impact\n" ++ "Spending, contracts, or budget commitments. Write \x27None discussed\x27 if absent.\n\n" := by
      decide
    have e4 : ("## Public Commentary\nNotable themes from public comment. Who spoke and on what topics.\n\n" : String)
        = "## Public Commentary\n" ++ "Notable themes from public comment. Who spoke and on what topics.\n\n" := by
      decide
    have e5 : ("## Next Steps & Deadlines\nFollow-up actions or future agenda items mentioned.\n\n" : String)
        = "## Next Steps & Deadlines\n" ++ "Follow-up actions or future agenda items mentioned.\n\n" := by
      decide
    refine ⟨"You are a senior municipal reporter covering a San Ramon City Council meeting on "
        ++ meeting.date ++ ".\n" ++ agendaNote meeting ++ minutesNote meeting ++ "\n"
        ++ "Produce a structured civic intelligence report with EXACTLY these sections:\n\n",
      "2-3 sentences on the meeting\x27s most significant outcomes.\n\n",
      "Bullet list of every formal vote. Include vote counts if mentioned.\n\n",
      "Spending, contracts, or budget commitments. Write \x27None discussed\x27 if absent.\n\n",
      "Notable themes from public comment. Who spoke and on what topics.\n\n",
      "Follow-up actions or future agenda items mentioned.\n\n"
        ++ "RULES: Start immediately with ## Executive Summary. Facts only. No preamble.\n\n"
        ++ "TRANSCRIPT:\n" ++ snippet, ?_,
      "Follow-up actions or future agenda items mentioned.\n\n",
      "TRANSCRIPT:\n" ++ snippet, rfl⟩
    simp only [build_prompt, e1, e2, e3, e4, e5, String.append_assoc]
  · intro τ transcript provider body hbody backend hmem
    have : backend = "groq_llama" ∨ backend = "gemini" ∨ backend = "trinity"
        ∨ backend = "deepseek_r1" := by simpa [SUPPORTED_BACKENDS] using hmem
    rcases this with rfl | rfl | rfl | rfl <;>
      simp [generate_summary, CONTEXT_LIMITS, backendLabel, hbody, _call_llm]

/-- Witness for C8 (amended): a provider that always answers "report"
passes its text through untouched on the gemini backend. -/
theorem prompt_five_sections_witness :
    (∀ prompt, (fun _ => Except.ok "report" : String → Except String String) prompt
        = Except.ok "report")
    ∧ "gemini" ∈ SUPPORTED_BACKENDS
    ∧ generate_summary (τ := Unit) "gemini" (freshMeeting ⟨2025, 6, 15⟩) []
        (fun _ => Except.ok "report") = some "report" :=
  ⟨fun _ => rfl, by decide,
   (prompt_five_sections (freshMeeting ⟨2025, 6, 15⟩)
      (prepare_transcript (τ := Unit) [] 120000)).2 Unit []
     (fun _ => Except.ok "report") "report" (fun _ => rfl) "gemini" (by decide)⟩

/- ────────────────────────────────────────────────────────────────────────
   C10 — backend validation happens before any credential lookup
   ──────────────────────────────────────────────────────────────────────── -/

theorem requireKey_backend {secret : String → Option String} {k b : String}
    {engine : CouncilEngine} (h : requireKey secret k b = Except.ok engine) :
    engine.backend = b := by
  unfold requireKey at h
  split at h
  · split at h
    · exact absurd h (by simp)
    · injection h with h2
      rw [← h2]
  · exact absurd h (by simp)

/-- C10: when the lowercased resolved backend name is not one of the four
supported backends, construction fails with the `ValueError` message
naming the supported backends, and the result does not depend on the
credential store at all (no credential lookup happens); any successfully
constructed engine carries a supported backend, so `generate_summary` can
only run on one of the four. -/
theorem backend_validated_before_credentials
    (backendArg envBackend : Option String) (secret : String → Option String) :
    (pyLower (pyOrStr backendArg (envBackend.getD "gemini")) ∉ SUPPORTED_BACKENDS →
      council_engine_init backendArg envBackend secret
        = Except.error ("Invalid backend \x27"
            ++ pyLower (pyOrStr backendArg (envBackend.getD "gemini"))
            ++ "\x27. Choose from: " ++ SUPPORTED_BACKENDS_REPR)
      ∧ (∀ secret2, council_engine_init backendArg envBackend secret
          = council_engine_init backendArg envBackend secret2)
      ∧ (∀ name ∈ SUPPORTED_BACKENDS, strContains SUPPORTED_BACKENDS_REPR name = true))
    ∧ (∀ engine, council_engine_init backendArg envBackend secret = Except.ok engine →
        engine.backend ∈ SUPPORTED_BACKENDS) := by
  constructor
  · intro hnot
    refine ⟨?_, ?_, ?_⟩
    · unfold council_engine_init
      rw [if_neg hnot]
    · intro secret2
      unfold council_engine_init
      rw [if_neg hnot, if_neg hnot]
    · intro name hname
      have : name = "groq_llama" ∨ name = "gemini" ∨ name = "trinity"
          ∨ name = "deepseek_r1" := by simpa [SUPPORTED_BACKENDS] using hname
      rcases this with rfl | rfl | rfl | rfl <;> decide
  · intro engine hok
    unfold council_engine_init at hok
    by_cases hmem : pyLower (pyOrStr backendArg (envBackend.getD "gemini"))
        ∈ SUPPORTED_BACKENDS
    · rw [if_pos hmem] at hok
      split at hok
      · rw [requireKey_backend hok]; exact hmem
      · rw [requireKey_backend hok]; exact hmem
      · rw [requireKey_backend hok]; exact hmem
      · rw [requireKey_backend hok]; exact hmem
      · exact absurd hok (by simp)
    · rw [if_neg hmem] at hok
      exact absurd hok (by simp)

/-- Witness for C10: the unknown backend "GPT4" is rejected with the
`ValueError` message, identically for two different credential stores. -/
theorem backend_validated_before_credentials_witness :
    (pyLower (pyOrStr (some "GPT4") ((none : Option String).getD "gemini"))
        ∉ SUPPORTED_BACKENDS)
    ∧ council_engine_init (some "GPT4") none (fun _ => some "a-key")
        = Except.error ("Invalid backend \x27"
            ++ pyLower (pyOrStr (some "GPT4") ((none : Option String).getD "gemini"))
            ++ "\x27. Choose from: " ++ SUPPORTED_BACKENDS_REPR)
    ∧ council_engine_init (some "GPT4") none (fun _ => some "a-key")
        = council_engine_init (some "GPT4") none (fun _ => none) :=
  ⟨by decide,
   ((backend_validated_before_credentials (some "GPT4") none (fun _ => some "a-key")).1
      (by decide)).1,
   ((backend_validated_before_credentials (some "GPT4") none (fun _ => some "a-key")).1
      (by decide)).2.1 (fun _ => none)⟩
